/- Verification of the Ethos semantic-memory service against its design
   specification.  The Rust subsystems under ethos-core and ethos-server are
   shallowly embedded as executable Lean definitions: numeric scores use
   exact rationals (f32 and f64 arithmetic idealised), timestamps are Unix
   seconds as integers, UUIDs are natural numbers, SQL tables are Lean lists
   of row structures, and hash maps are association lists.  Theorems then
   settle the specification claims about retrieval, spreading activation,
   consolidation conflict resolution, decay with long-term potentiation,
   the embedding retry client, and the re-embed backfill worker. -/
import Mathlib

namespace Ethos

/-! ### Generic helpers

Association lists stand in for Rust `HashMap`s (insertion order is the
iteration order) and a stable insertion sort stands in for Rust
`sort_by` and SQL `ORDER BY`. -/

/-- Stable insert for `sortOn`: place `x` before the first element `y`
with `le x y`. -/
def insertOn (le : α → α → Bool) (x : α) : List α → List α
  | [] => [x]
  | y :: ys => if le x y then x :: y :: ys else y :: insertOn le x ys

/-- Stable insertion sort by a boolean comparison; models Rust `sort_by`
and SQL `ORDER BY`. -/
def sortOn (le : α → α → Bool) : List α → List α
  | [] => []
  | x :: xs => insertOn le x (sortOn le xs)

theorem mem_insertOn (le : α → α → Bool) (x a : α) (l : List α) :
    a ∈ insertOn le x l ↔ a = x ∨ a ∈ l := by
  induction l with
  | nil => simp [insertOn]
  | cons y ys ih =>
    simp only [insertOn]
    by_cases h : le x y = true
    · simp [h]
    · simp [h, ih]
      tauto

theorem mem_sortOn (le : α → α → Bool) (a : α) (l : List α) :
    a ∈ sortOn le l ↔ a ∈ l := by
  induction l with
  | nil => simp [sortOn]
  | cons x xs ih => simp [sortOn, mem_insertOn, ih]

theorem pairwise_insertOn (le : α → α → Bool)
    (htot : ∀ a b, le a b = true ∨ le b a = true)
    (htrans : ∀ a b c, le a b = true → le b c = true → le a c = true)
    (x : α) (l : List α) (hl : l.Pairwise (fun a b => le a b = true)) :
    (insertOn le x l).Pairwise (fun a b => le a b = true) := by
  induction l with
  | nil => simp [insertOn]
  | cons y ys ih =>
    rcases List.pairwise_cons.mp hl with ⟨hy, hys⟩
    by_cases h : le x y = true
    · simp only [insertOn, h, if_true]
      refine List.pairwise_cons.mpr ⟨?_, hl⟩
      intro z hz
      rcases List.mem_cons.mp hz with rfl | hz2
      · exact h
      · exact htrans _ _ _ h (hy _ hz2)
    · simp only [insertOn, h, if_false]
      refine List.pairwise_cons.mpr ⟨?_, ih hys⟩
      intro z hz
      rcases (mem_insertOn le x z ys).mp hz with rfl | hz2
      · rcases htot z y with h1 | h1
        · exact absurd h1 h
        · exact h1
      · exact hy _ hz2

theorem pairwise_sortOn (le : α → α → Bool)
    (htot : ∀ a b, le a b = true ∨ le b a = true)
    (htrans : ∀ a b c, le a b = true → le b c = true → le a c = true)
    (l : List α) :
    (sortOn le l).Pairwise (fun a b => le a b = true) := by
  induction l with
  | nil => simp [sortOn]
  | cons x xs ih => exact pairwise_insertOn le htot htrans x _ ih

/-- Pairwise relations survive a `filterMap` whose partial function
carries the relation across. -/
theorem pairwise_filterMap_of_pairwise {R : α → α → Prop} {S : β → β → Prop}
    (f : α → Option β)
    (hf : ∀ a b x y, R a b → f a = some x → f b = some y → S x y)
    (l : List α) (hl : l.Pairwise R) : (l.filterMap f).Pairwise S := by
  induction l with
  | nil => simp
  | cons a as ih =>
    rcases List.pairwise_cons.mp hl with ⟨ha, has⟩
    cases hfa : f a with
    | none => simpa [List.filterMap_cons, hfa] using ih has
    | some x =>
      simp only [List.filterMap_cons, hfa]
      refine List.pairwise_cons.mpr ⟨?_, ih has⟩
      intro y hy
      rcases List.mem_filterMap.mp hy with ⟨b, hb, hfb⟩
      exact hf a b x y (ha b hb) hfa hfb

/-- Association-list overwrite, modelling `HashMap::insert`. -/
def putA (m : List (ℕ × α)) (k : ℕ) (v : α) : List (ℕ × α) :=
  match m with
  | [] => [(k, v)]
  | (k1, v1) :: rest => if k1 = k then (k1, v) :: rest else (k1, v1) :: putA rest k v

/-- Association-list lookup, modelling `HashMap::get`. -/
def findA (m : List (ℕ × α)) (k : ℕ) : Option α :=
  match m with
  | [] => none
  | (k1, v1) :: rest => if k1 = k then some v1 else findA rest k

/-- Rational-valued lookup with default `0`, modelling
`map.get(id).copied().unwrap_or(0.0)`. -/
def getQ (m : List (ℕ × ℚ)) (k : ℕ) : ℚ :=
  (findA m k).getD 0

/-- Add `v` to the entry at `k`, modelling
`*map.entry(k).or_insert(0.0) += v`. -/
def addTo (m : List (ℕ × ℚ)) (k : ℕ) (v : ℚ) : List (ℕ × ℚ) :=
  match m with
  | [] => [(k, v)]
  | (k1, v1) :: rest => if k1 = k then (k1, v1 + v) :: rest else (k1, v1) :: addTo rest k v

theorem findA_putA (m : List (ℕ × α)) (k k2 : ℕ) (v : α) :
    findA (putA m k v) k2 = if k = k2 then some v else findA m k2 := by
  induction m with
  | nil =>
    by_cases h : k = k2 <;> simp [putA, findA, h]
  | cons p rest ih =>
    obtain ⟨k1, v1⟩ := p
    by_cases h1 : k1 = k
    · subst h1
      by_cases h2 : k1 = k2 <;> simp [putA, findA, h2]
    · by_cases h2 : k1 = k2
      · subst h2
        have : ¬ k = k1 := fun h => h1 h.symm
        simp [putA, findA, h1, this]
      · simp [putA, findA, h1, h2, ih]

theorem getQ_addTo (m : List (ℕ × ℚ)) (k k2 : ℕ) (v : ℚ) :
    getQ (addTo m k v) k2 = getQ m k2 + (if k = k2 then v else 0) := by
  induction m with
  | nil =>
    by_cases h : k = k2 <;> simp [addTo, getQ, findA, h]
  | cons p rest ih =>
    obtain ⟨k1, v1⟩ := p
    by_cases h1 : k1 = k
    · subst h1
      by_cases h2 : k1 = k2 <;> simp [addTo, getQ, findA, h2]
    · by_cases h2 : k1 = k2
      · subst h2
        have hk : ¬ k = k1 := fun h => h1 h.symm
        simp [addTo, getQ, findA, h1, hk]
      · simp only [addTo, if_neg h1, getQ, findA, if_neg h2]
        simpa [getQ] using ih

theorem mem_keys_putA (m : List (ℕ × α)) (k k2 : ℕ) (v : α) :
    k2 ∈ (putA m k v).map Prod.fst ↔ k2 = k ∨ k2 ∈ m.map Prod.fst := by
  induction m with
  | nil => simp [putA]
  | cons p rest ih =>
    obtain ⟨k1, v1⟩ := p
    by_cases h1 : k1 = k
    · subst h1
      simp [putA]
    · simp only [putA, if_neg h1, List.map_cons, List.mem_cons, ih]
      tauto

/-- Case-insensitive ASCII substring containment, modelling SQL
`content ILIKE '%phrase%'` and Rust `str::contains` on lowercased text. -/
def containsSub (hay needle : List Char) : Bool :=
  match hay with
  | [] => needle.isEmpty
  | _ :: rest => needle.isPrefixOf hay || containsSub rest needle

/-- ASCII lowercasing of a string, as a character list (the inputs in
question are ASCII, where Rust `to_lowercase` agrees). -/
def lowerChars (s : String) : List Char :=
  s.toList.map Char.toLower

def containsCI (hay needle : String) : Bool :=
  containsSub (lowerChars hay) (lowerChars needle)

/-- Characters with trailing whitespace removed
(Rust `str::trim_end`). -/
def trimRightChars (l : List Char) : List Char :=
  (l.reverse.dropWhile Char.isWhitespace).reverse

/-- Characters with whitespace removed on both ends
(Rust `str::trim`). -/
def trimChars (l : List Char) : List Char :=
  trimRightChars (l.dropWhile Char.isWhitespace)

/-- UTF-8 size in bytes of one character. -/
def charBytes (c : Char) : ℕ :=
  if c.toNat < 128 then 1
  else if c.toNat < 2048 then 2
  else if c.toNat < 65536 then 3
  else 4

/-- UTF-8 byte length of a string (Rust `str::len`). -/
def byteLen (s : String) : ℕ :=
  (s.toList.map charBytes).sum

/-! ### Graph activation core (`ethos-core/src/graph.rs`)

`spread_activation_core` is a pure function; the embedding follows the
Rust line by line.  The adjacency map built from the edge list is
inlined as an order-preserving filter over the edges, which yields the
same contributions in the same order. -/

/-- Retrieval configuration (`ethos-core/src/config.rs`). -/
structure RetrievalConfig where
  decay_factor : ℚ
  spreading_strength : ℚ
  iterations : ℕ
  anchor_top_k_episodes : ℕ
  anchor_top_k_facts : ℕ
  weight_similarity : ℚ
  weight_activation : ℚ
  weight_structural : ℚ
  confidence_gate : ℚ
  deriving Repr, DecidableEq

/-- A node in the activation graph with scoring components. -/
structure ActivationNode where
  id : ℕ
  node_type : String
  cosine_score : ℚ
  spread_score : ℚ
  structural_score : ℚ
  final_score : ℚ
  deriving Repr, DecidableEq

/-- An edge in the memory graph. -/
structure GraphEdge where
  from_id : ℕ
  to_id : ℕ
  to_type : String
  weight : ℚ
  deriving Repr, DecidableEq

/-- Result of spreading activation. -/
structure SpreadResult where
  nodes : List ActivationNode
  iterations : ℕ
  edges_loaded : ℕ
  deriving Repr, DecidableEq

/-- One spreading iteration of the Rust loop body: build the delta map
`new_activation` from a snapshot of `activation`, then merge it back by
accumulation. -/
def spreadIteration (edges : List GraphEdge) (strength : ℚ)
    (activation : List (ℕ × ℚ)) : List (ℕ × ℚ) :=
  let new_activation :=
    activation.foldl
      (fun acc entry =>
        (edges.filter (fun e => e.from_id = entry.1)).foldl
          (fun acc2 e => addTo acc2 e.to_id (entry.2 * e.weight * strength))
          acc)
      []
  new_activation.foldl (fun act entry => addTo act entry.1 entry.2) activation

/-- The `for _iteration in 0..config.iterations` loop: apply
`spreadIteration` the configured number of times. -/
def spreadLoop (edges : List GraphEdge) (strength : ℚ) :
    ℕ → List (ℕ × ℚ) → List (ℕ × ℚ)
  | 0, act => act
  | n + 1, act => spreadIteration edges strength (spreadLoop edges strength n act)

/-- Core spreading activation algorithm (`spread_activation_core`). -/
def spread_activation_core (anchors : List ActivationNode)
    (edges : List GraphEdge) (config : RetrievalConfig) : SpreadResult :=
  if anchors.isEmpty then
    { nodes := [], iterations := 0, edges_loaded := 0 }
  else if edges.isEmpty then
    { nodes :=
        anchors.map (fun a =>
          { id := a.id, node_type := a.node_type, cosine_score := a.cosine_score,
            spread_score := 0, structural_score := 0,
            final_score := config.weight_similarity * a.cosine_score }),
      iterations := 0, edges_loaded := 0 }
  else
    let activation0 :=
      anchors.foldl (fun m a => putA m a.id a.cosine_score) []
    let node_types :=
      edges.foldl (fun m e => putA m e.to_id e.to_type)
        (anchors.foldl (fun m a => putA m a.id a.node_type) [])
    let activation :=
      spreadLoop edges config.spreading_strength config.iterations activation0
    let in_degree :=
      edges.foldl (fun m e => addTo m e.to_id 1) []
    let max_in_degree : ℚ := (edges.length : ℚ)
    let nodes :=
      node_types.map (fun entry =>
        let cosine :=
          ((anchors.find? (fun a => a.id = entry.1)).map
            (fun a => a.cosine_score)).getD 0
        let spread := getQ activation entry.1
        let structural := getQ in_degree entry.1 / max_in_degree
        { id := entry.1, node_type := entry.2, cosine_score := cosine,
          spread_score := spread, structural_score := structural,
          final_score := config.weight_similarity * cosine
            + config.weight_activation * spread
            + config.weight_structural * structural : ActivationNode })
    { nodes := sortOn (fun a b => decide (b.final_score ≤ a.final_score)) nodes,
      iterations := config.iterations,
      edges_loaded := edges.length }

/-- Modelled from the spec: the live-read iteration that section 9 and the
claim describe, in which each processed node immediately merges its
contributions into the activation map, so a node processed later in the
same iteration propagates contributions it received earlier in that
iteration.  Used only to contrast with the snapshot behaviour of
`spread_activation_core`. -/
def specLiveIteration (edges : List GraphEdge) (strength : ℚ)
    (order : List ℕ) (activation : List (ℕ × ℚ)) : List (ℕ × ℚ) :=
  order.foldl
    (fun act n =>
      (edges.filter (fun e => e.from_id = n)).foldl
        (fun acc e => addTo acc e.to_id (getQ acc n * e.weight * strength))
        act)
    activation

/-! ### Data model rows

Rows of the `episodic_traces`, `semantic_facts` and `memory_vectors`
tables.  Timestamps are Unix seconds (`ℤ`), ids are naturals, scores
are rationals. -/

/-- A row of `episodic_traces`. -/
structure EpisodeRow where
  id : ℕ
  session_id : ℕ
  agent_id : String
  content : String
  importance : ℚ
  salience : ℚ
  emotional_tone : ℚ
  retrieval_count : ℕ
  last_retrieved_at : Option ℤ
  created_at : ℤ
  consolidated_at : Option ℤ
  pruned : Bool
  topics : List String
  entities : List String
  deriving Repr, DecidableEq

/-- A row of `semantic_facts`. -/
structure SemFact where
  id : ℕ
  kind : String
  statement : String
  subject : String
  predicate : String
  object : String
  confidence : ℚ
  salience : ℚ
  source_episodes : List ℕ
  source_agent : Option String
  topics : List String
  retrieval_count : ℕ
  last_retrieved_at : Option ℤ
  superseded_by : Option ℕ
  flagged_for_review : Bool
  pruned : Bool
  deriving Repr, DecidableEq

/-- A row of `memory_vectors`. -/
structure VecRow where
  id : ℕ
  source_type : String
  content : Option String
  source : Option String
  vector : Option (List ℚ)
  created_at : ℤ
  last_accessed : Option ℤ
  access_count : Option ℤ
  importance : Option ℚ
  expires_at : Option ℤ
  pruned : Bool
  deriving Repr, DecidableEq

/-- The three memory tables touched by `record_retrieval`. -/
structure MemDb where
  episodes : List EpisodeRow
  facts : List SemFact
  vectors : List VecRow
  deriving Repr, DecidableEq

/-! ### Decay and long-term potentiation (`ethos-server/src/subsystems/decay.rs`)

`calculate_salience` is a pure function of the item state and the wall
clock; the clock (`Utc::now()` in the Rust) is passed explicitly as
`now`.  `(now - last).num_seconds()` is whole seconds, modelled by
integer timestamps. -/

/-- Decay configuration (`ethos-core/src/config.rs`), over the reals
because the salience equation uses the exponential. -/
structure DecayConfig where
  base_tau_days : ℝ
  ltp_multiplier : ℝ
  frequency_weight : ℝ
  emotional_weight : ℝ
  prune_threshold : ℝ

/-- Rust `f64::clamp(0.0, 1.0)`. -/
noncomputable def clamp01 (x : ℝ) : ℝ := min (max x 0) 1

/-- Pure salience recomputation (`calculate_salience`), with `now`
passed explicitly.  `retrieval_count` is an `i32`, hence `ℤ` with
`powi` as `zpow`. -/
noncomputable def calculate_salience (current_salience : ℝ)
    (retrieval_count : ℤ) (created_at : ℤ) (last_accessed : Option ℤ)
    (emotional_tone : ℝ) (config : DecayConfig) (now : ℤ) : ℝ :=
  let last := last_accessed.getD created_at
  let t : ℝ := ((now - last : ℤ) : ℝ) / 86400
  let tau_eff := config.base_tau_days * config.ltp_multiplier ^ retrieval_count
  let decay := Real.exp (-t / tau_eff)
  let days_alive := max (((now - created_at : ℤ) : ℝ) / 86400) 1
  let f := min ((retrieval_count : ℝ) / days_alive) 1
  let e := min (max emotional_tone 0) 1
  let new_salience := current_salience * decay
    * (1 + config.frequency_weight * f)
    * (1 + config.emotional_weight * e)
  clamp01 new_salience

/-- The `"episode"` arm of `record_retrieval`: bump the counter, stamp
the access time, boost salience by the LTP factor. -/
def record_retrieval_episode (now : ℤ) (e : EpisodeRow) : EpisodeRow :=
  { e with
    retrieval_count := e.retrieval_count + 1,
    last_retrieved_at := some now,
    salience := min (e.salience * (11/10)) 1 }

/-- The `"fact"` arm of `record_retrieval`. -/
def record_retrieval_fact (now : ℤ) (f : SemFact) : SemFact :=
  { f with
    retrieval_count := f.retrieval_count + 1,
    last_retrieved_at := some now,
    confidence := min (f.confidence + 2/100) 1,
    salience := min (f.salience * (11/10)) 1 }

/-- The default (`memory_vectors`) arm of `record_retrieval`;
`COALESCE` gives the `0` and `0.5` defaults. -/
def record_retrieval_vector (now : ℤ) (v : VecRow) : VecRow :=
  { v with
    access_count := some ((v.access_count.getD 0) + 1),
    last_accessed := some now,
    importance := some (min ((v.importance.getD (1/2)) * (21/20)) 1) }

/-- Record a retrieval event (`record_retrieval`): dispatch on the
source type and apply the update to the row with the given id. -/
def record_retrieval (db : MemDb) (memory_id : ℕ) (source_type : String)
    (now : ℤ) : MemDb :=
  match source_type with
  | "episode" =>
    { db with episodes :=
        db.episodes.map (fun e =>
          if e.id = memory_id then record_retrieval_episode now e else e) }
  | "fact" =>
    { db with facts :=
        db.facts.map (fun f =>
          if f.id = memory_id then record_retrieval_fact now f else f) }
  | _ =>
    { db with vectors :=
        db.vectors.map (fun v =>
          if v.id = memory_id then record_retrieval_vector now v else v) }

/-! ### Embedding client (`ethos-core/src/embeddings.rs`)

The Gemini HTTP endpoint is external; it is modelled as a function from
the attempt index to an `HttpResponse`.  `tokio_retry::Retry::spawn`
with a strategy of `max_retries` delays makes one initial attempt plus
up to `max_retries` retries, retrying on every error. -/

/-- Gemini embedding client configuration. -/
structure EmbeddingConfig where
  api_key : String
  model : String
  dimensions : ℕ
  max_retries : ℕ
  retry_delay_ms : ℕ
  deriving Repr, DecidableEq

/-- The `EmbeddingConfig::new` constructor: the key falls back to the
`GOOGLE_API_KEY` environment variable (passed in as `env_api_key`) and
then to the empty string; `max_retries` defaults to 3. -/
def EmbeddingConfig.new (api_key : Option String) (env_api_key : Option String)
    (model : String) (dimensions : ℕ) : EmbeddingConfig :=
  { api_key := (match api_key with | some k => some k | none => env_api_key).getD "",
    model := model, dimensions := dimensions,
    max_retries := 3, retry_delay_ms := 1000 }

/-- Embedding generation errors (`EmbeddingError`).  `http` covers the
`reqwest`-level failures, including a JSON decode failure of a success
response. -/
inductive EmbeddingError where
  | http
  | api (code : ℕ) (message : String)
  | invalidDimensions (expected actual : ℕ)
  | missingEmbedding
  | missingApiKey
  | retryExhausted (attempts : ℕ)
  | modelNotFound (path : String)
  deriving Repr, DecidableEq

/-- One HTTP exchange with the embeddings endpoint: the status code, the
parsed `GeminiErrorResponse` detail when the error body parsed, the raw
error body, and the parsed embedding values of a success body (`none`
models a body that failed to decode). -/
structure HttpResponse where
  status : ℕ
  error_detail : Option (ℕ × String)
  body_text : String
  values : Option (List ℚ)
  deriving Repr, DecidableEq

/-- A single attempt (`embed_once`): non-2xx statuses become
`Api{code, message}`, a success body must decode and carry exactly
`dimensions` values. -/
def embed_once (config : EmbeddingConfig) (resp : HttpResponse) :
    Except EmbeddingError (List ℚ) :=
  if ¬ (200 ≤ resp.status ∧ resp.status < 300) then
    let cm := resp.error_detail.getD (resp.status, resp.body_text)
    .error (.api cm.1 cm.2)
  else
    match resp.values with
    | none => .error .http
    | some vs =>
      if vs.length ≠ config.dimensions then
        .error (.invalidDimensions config.dimensions vs.length)
      else
        .ok vs

/-- The retry loop driven by `Retry::spawn`: run the attempt, and while
retries remain, retry on any error. -/
def retryAttempts (config : EmbeddingConfig)
    (responses : ℕ → HttpResponse) :
    ℕ → ℕ → Except EmbeddingError (List ℚ)
  | remaining, idx =>
    match embed_once config (responses idx) with
    | .ok v => .ok v
    | .error e =>
      match remaining with
      | 0 => .error e
      | r + 1 => retryAttempts config responses r (idx + 1)

/-- `embed_with_task`: one initial attempt plus up to `max_retries`
retries; any error surviving the loop is reported as
`RetryExhausted{attempts = max_retries}`. -/
def embed_with_task (config : EmbeddingConfig)
    (responses : ℕ → HttpResponse) : Except EmbeddingError (List ℚ) :=
  match retryAttempts config responses config.max_retries 0 with
  | .ok v => .ok v
  | .error _ => .error (.retryExhausted config.max_retries)

/-! ### Re-embed backfill worker (`ethos-server/src/subsystems/reembed.rs`)

The backend is modelled as a function from the call index to an
outcome, matching the call-counting mock backends of the Rust tests. -/

/-- Server-side embedding configuration fields used by the worker. -/
structure ServerEmbeddingConfig where
  rate_limit_rpm : ℕ
  reembed_interval_minutes : ℕ
  reembed_batch_size : ℕ
  reembed_enabled : Bool
  deriving Repr, DecidableEq

/-- The `CASE source_type` ordering key of `fetch_null_rows`. -/
def sourcePriority (t : String) : ℕ :=
  if t = "episode" then 0 else if t = "fact" then 1 else 2

/-- A row still awaiting an embedding:
`vector IS NULL AND content IS NOT NULL`. -/
def isNullRow (r : VecRow) : Bool :=
  r.vector.isNone && r.content.isSome

/-- Fetch NULL-vector rows, episodes first then facts, newest first
within each class, limited to the batch size. -/
def fetch_null_rows (vectors : List VecRow) (batch_size : ℕ) : List VecRow :=
  (sortOn
    (fun r1 r2 =>
      decide (sourcePriority r1.source_type < sourcePriority r2.source_type
        ∨ (sourcePriority r1.source_type = sourcePriority r2.source_type
            ∧ r2.created_at ≤ r1.created_at)))
    (vectors.filter isNullRow)).take batch_size

/-- The per-row loop of `run_reembed_tick`: `Some(v)` writes the vector
and counts as embedded, `None` stops the batch accounting
`rows.len() - embedded` more rows as skipped, `Err` skips the single
row and continues. -/
def reembedProcess (backend : ℕ → Except Unit (Option (List ℚ)))
    (rows_len : ℕ) :
    List VecRow → ℕ → ℕ → ℕ → List VecRow → (ℕ × ℕ) × List VecRow
  | [], _, embedded, skipped, store => ((embedded, skipped), store)
  | row :: rest, call_idx, embedded, skipped, store =>
    match backend call_idx with
    | .ok (some v) =>
      reembedProcess backend rows_len rest (call_idx + 1) (embedded + 1) skipped
        (store.map fun r => if r.id = row.id then { r with vector := some v } else r)
    | .ok none => ((embedded, skipped + (rows_len - embedded)), store)
    | .error _ =>
      reembedProcess backend rows_len rest (call_idx + 1) embedded (skipped + 1) store

/-- A single re-embed tick (`run_reembed_tick`), returning the
`(embedded, skipped)` report and the updated table. -/
def run_reembed_tick (store : List VecRow)
    (backend : ℕ → Except Unit (Option (List ℚ)))
    (config : ServerEmbeddingConfig) : (ℕ × ℕ) × List VecRow :=
  let null_count := (store.filter isNullRow).length
  if null_count = 0 then ((0, 0), store)
  else
    let rows := fetch_null_rows store config.reembed_batch_size
    reembedProcess backend rows.length rows 0 0 0 store

/-! ### Retrieval engine (`ethos-server/src/subsystems/retrieve.rs`)

The pgvector cosine-distance operator is external and enters the model
as the abstract function `dist`; the query embedding backend is a
function from the query text to the `embed_query` outcome. -/

/-- A search result item. -/
structure SearchResult where
  id : ℕ
  content : String
  source : String
  score : ℚ
  cosine_score : ℚ
  spread_score : ℚ
  structural_score : ℚ
  created_at : ℤ
  deriving Repr, DecidableEq

/-- The JSON value returned by `search_memory`: one of the three error
payloads or the results payload. -/
inductive SearchOutcome where
  | errEmptyQuery
  | errEmbeddingUnavailable
  | errEmbedFailed (message : String)
  | results (items : List SearchResult) (query : String) (count : ℕ)
  deriving Repr, DecidableEq

/-- Edges touching the anchor set, heaviest first, capped at 500
(`load_subgraph_edges`). -/
def load_subgraph_edges (edges : List GraphEdge) (anchor_ids : List ℕ) :
    List GraphEdge :=
  (sortOn (fun e1 e2 => decide (e2.weight ≤ e1.weight))
    (edges.filter (fun e =>
      anchor_ids.contains e.from_id || anchor_ids.contains e.to_id))).take 500

/-- Distance of a row from the query vector; only applied to rows whose
vector is present. -/
def rowDist (dist : List ℚ → List ℚ → ℚ) (qv : List ℚ) (r : VecRow) : ℚ :=
  match r.vector with
  | some w => dist qv w
  | none => 0

/-- The vector top-k row limit: the anchor budget when spreading is on,
otherwise the result limit. -/
def anchorLimit (config : RetrievalConfig) (use_spreading : Bool) (lim : ℕ) :
    ℕ :=
  if use_spreading then
    config.anchor_top_k_episodes + config.anchor_top_k_facts
  else lim

/-- The vector top-k query (`rows`): non-NULL-vector rows ordered by
distance from the query vector, truncated to the anchor limit. -/
def searchRows (db : MemDb) (dist : List ℚ → List ℚ → ℚ) (qv : List ℚ)
    (k : ℕ) : List VecRow :=
  (sortOn (fun r1 r2 => decide (rowDist dist qv r1 ≤ rowDist dist qv r2))
    (db.vectors.filter (fun r => r.vector.isSome))).take k

/-- The fetched rows paired with their non-NULL content and source: the
rows that enter both `content_map` and `anchor_nodes`. -/
def searchAnchorRows (db : MemDb) (dist : List ℚ → List ℚ → ℚ)
    (qv : List ℚ) (k : ℕ) : List (VecRow × String × String) :=
  (searchRows db dist qv k).filterMap (fun r =>
    match r.content, r.source with
    | some c, some s => some (r, c, s)
    | _, _ => none)

/-- The anchor node list (`anchor_nodes`). -/
def searchAnchors (db : MemDb) (dist : List ℚ → List ℚ → ℚ) (qv : List ℚ)
    (k : ℕ) : List ActivationNode :=
  (searchAnchorRows db dist qv k).map (fun rcs =>
    { id := rcs.1.id, node_type := rcs.2.2,
      cosine_score := 1 - rowDist dist qv rcs.1,
      spread_score := 0, structural_score := 0,
      final_score := 1 - rowDist dist qv rcs.1 : ActivationNode })

/-- The content map keyed by row id (`content_map`). -/
def searchContentMap (db : MemDb) (dist : List ℚ → List ℚ → ℚ)
    (qv : List ℚ) (k : ℕ) : List (ℕ × (String × String × ℤ)) :=
  (searchAnchorRows db dist qv k).foldl
    (fun m rcs => putA m rcs.1.id (rcs.2.1, rcs.2.2, rcs.1.created_at)) []

/-- The scored node list (`final_nodes`): spreading activation over the
anchor subgraph when enabled and anchors exist, otherwise the anchors
themselves. -/
def searchFinalNodes (db : MemDb) (graph_edges : List GraphEdge)
    (config : RetrievalConfig) (dist : List ℚ → List ℚ → ℚ) (qv : List ℚ)
    (use_spreading : Bool) (k : ℕ) : List ActivationNode :=
  let anchors := searchAnchors db dist qv k
  if use_spreading ∧ ¬ anchors.isEmpty then
    (spread_activation_core anchors
      (load_subgraph_edges graph_edges (anchors.map (fun a => a.id)))
      config).nodes
  else anchors

/-- The assembled result items (`results`): the top `lim` scored nodes,
keeping only those whose id resolves in the content map. -/
def searchResults (db : MemDb) (graph_edges : List GraphEdge)
    (config : RetrievalConfig) (dist : List ℚ → List ℚ → ℚ) (qv : List ℚ)
    (use_spreading : Bool) (lim : ℕ) : List SearchResult :=
  let k := anchorLimit config use_spreading lim
  ((searchFinalNodes db graph_edges config dist qv use_spreading k).take
      lim).filterMap (fun n =>
    (findA (searchContentMap db dist qv k) n.id).map (fun css =>
      { id := n.id, content := css.1, source := css.2.1,
        score := n.final_score, cosine_score := n.cosine_score,
        spread_score := n.spread_score,
        structural_score := n.structural_score,
        created_at := css.2.2 : SearchResult }))

/-- Semantic search (`search_memory`).  Returns the response JSON
and the store as left behind by the fire-and-forget retrieval
recording. -/
def search_memory (query : String) (limit : Option ℕ) (use_spreading : Bool)
    (db : MemDb) (graph_edges : List GraphEdge)
    (backend_embed_query : String → Except String (Option (List ℚ)))
    (config : RetrievalConfig) (dist : List ℚ → List ℚ → ℚ) (now : ℤ) :
    SearchOutcome × MemDb :=
  let qChars := trimChars query.toList
  if qChars.isEmpty then (.errEmptyQuery, db)
  else
    let q := String.mk qChars
    let lim := (limit.map (fun l => min (max l 1) 20)).getD 5
    match backend_embed_query q with
    | .error e => (.errEmbedFailed e, db)
    | .ok none => (.errEmbeddingUnavailable, db)
    | .ok (some qv) =>
      let results :=
        searchResults db graph_edges config dist qv use_spreading lim
      let db2 :=
        results.foldl (fun d r => record_retrieval d r.id "vector" now) db
      (.results results q results.length, db2)

/-! ### Consolidation engine (`ethos-server/src/subsystems/consolidate.rs`)

The fixed extraction lexicon uses a small regex fragment: literals,
alternation, optional groups, character-class quantifiers, one capture
group level and an end anchor.  The matcher below implements exactly
that fragment with the leftmost-first semantics of the Rust `regex`
crate: candidate matches are produced in priority order (alternatives
in writing order, greedy quantifiers longest first, lazy quantifiers
shortest first) and the scan takes the first match at the earliest
starting offset.  Apostrophes in pattern literals are written with the
`\x27` escape; note that several source patterns carry a doubled
apostrophe (`let\x27\x27s`, `we\x27\x27ll`, `\x27\x27s favorite`). -/

/-- The regex fragment used by the consolidation lexicon. -/
inductive Rx where
  | eps
  | cls (p : Char → Bool)
  | seq (r1 r2 : Rx)
  | alt (r1 r2 : Rx)
  | opt (r : Rx)
  | star (p : Char → Bool)
  | plus (p : Char → Bool)
  | plusLazy (p : Char → Bool)
  | grp (r : Rx)
  | endAnchor

/-- All ways a pattern can match a prefix of `s`, as pairs of the
remaining suffix and the captured groups, in priority order. -/
def munch : Rx → List Char → List (List Char × List String)
  | .eps, s => [(s, [])]
  | .cls p, s =>
    match s with
    | [] => []
    | c :: rest => if p c then [(rest, [])] else []
  | .seq r1 r2, s =>
    (munch r1 s).flatMap (fun res1 =>
      (munch r2 res1.1).map (fun res2 => (res2.1, res1.2 ++ res2.2)))
  | .alt r1 r2, s => munch r1 s ++ munch r2 s
  | .opt r, s => munch r s ++ [(s, [])]
  | .star p, s =>
    let maxRun := (s.takeWhile p).length
    (List.range (maxRun + 1)).reverse.map (fun k => (s.drop k, []))
  | .plus p, s =>
    let maxRun := (s.takeWhile p).length
    (List.range maxRun).reverse.map (fun i => (s.drop (i + 1), []))
  | .plusLazy p, s =>
    let maxRun := (s.takeWhile p).length
    (List.range maxRun).map (fun i => (s.drop (i + 1), []))
  | .grp r, s =>
    (munch r s).map (fun res =>
      (res.1, String.mk (s.take (s.length - res.1.length)) :: res.2))
  | .endAnchor, s =>
    match s with
    | [] => [([], [])]
    | _ :: _ => []

/-- Leftmost-first search (`Regex::captures`): scan start offsets left
to right and return the captures of the first match. -/
def searchRx (r : Rx) : List Char → Option (List String)
  | [] =>
    match munch r [] with
    | res :: _ => some res.2
    | [] => none
  | c :: rest =>
    match munch r (c :: rest) with
    | res :: _ => some res.2
    | [] => searchRx r rest

/-- Sequence a list of pattern pieces. -/
def seqList (rs : List Rx) : Rx := rs.foldr .seq .eps

/-- Case-insensitive literal. -/
def litCI (w : String) : Rx :=
  seqList (w.toList.map (fun c => .cls (fun d => d.toLower = c.toLower)))

/-- ASCII reading of the regex class `\w`. -/
def wordChar (c : Char) : Bool := c.isAlphanum || c = '_'

/-- The regex class `\s`. -/
def wsChar (c : Char) : Bool := c.isWhitespace

/-- The regex `.` (any character but a newline). -/
def dotChar (c : Char) : Bool := c ≠ '\n'

/-- The decision patterns with their predicates, verbatim from
`extract_fact_from_episode` (including the doubled apostrophes of the
second and fourth patterns). -/
def decision_patterns : List (Rx × String) :=
  [ (seqList [.opt (.seq (litCI "we") (.plus wsChar)), litCI "decided",
      .plus wsChar, .opt (.seq (litCI "to") (.plus wsChar)),
      .alt (litCI "use")
        (.alt (seqList [litCI "go", .plus wsChar, litCI "with"])
          (seqList [litCI "switch", .plus wsChar, litCI "to"])),
      .plus wsChar, .grp (.plus wordChar)], "uses"),
    (seqList [litCI "let\x27\x27s", .plus wsChar, litCI "go", .plus wsChar,
      litCI "with", .plus wsChar, .grp (.plus wordChar)], "uses"),
    (seqList [litCI "the", .plus wsChar, litCI "plan", .plus wsChar,
      litCI "is", .plus wsChar, .opt (.seq (litCI "to") (.plus wsChar)),
      .grp (.plusLazy dotChar),
      .alt (.cls (fun c => c = '.')) .endAnchor], "plan"),
    (seqList [litCI "we\x27\x27ll", .plus wsChar, litCI "use", .plus wsChar,
      .grp (.plus wordChar)], "uses"),
    (seqList [litCI "going", .plus wsChar, litCI "with", .plus wsChar,
      .grp (.plus wordChar)], "uses") ]

/-- The preference patterns with their predicates. -/
def preference_patterns : List (Rx × String) :=
  [ (seqList [.grp (.plus wordChar), .plus wsChar, litCI "prefer",
      .opt (.cls (fun c => c.toLower = 's')), .plus wsChar,
      .grp (.seq (.plus wordChar)
        (.opt (.seq (.plus wsChar) (.plus wordChar)))),
      .plus wsChar, .alt (litCI "over") (litCI "than"), .plus wsChar,
      .grp (.plus wordChar)], "prefers"),
    (seqList [.grp (.plus wordChar), .plus wsChar, litCI "love",
      .opt (.cls (fun c => c.toLower = 's')), .plus wsChar,
      .grp (.plus wordChar)], "loves"),
    (seqList [.grp (.plus wordChar), .plus wsChar, litCI "hate",
      .opt (.cls (fun c => c.toLower = 's')), .plus wsChar,
      .grp (.plus wordChar)], "hates"),
    (seqList [.grp (.plus wordChar), .plus wsChar, litCI "always",
      .plus wsChar, .grp (.plus wordChar)], "always"),
    (seqList [.grp (.plus wordChar), .plus wsChar, litCI "never",
      .plus wsChar, .grp (.plus wordChar)], "never"),
    (seqList [.grp (.plus wordChar), litCI "\x27\x27s", .plus wsChar,
      litCI "favorite", .plus wsChar, .grp (.plus wordChar), .plus wsChar,
      litCI "is", .plus wsChar, .grp (.plus wordChar)], "favorite") ]

/-- The explicit-marker patterns. -/
def marker_patterns : List Rx :=
  [ seqList [litCI "remember", .plus wsChar,
      .alt (litCI "this") (litCI "that"), litCI ":", .star wsChar,
      .grp (.plusLazy dotChar), .alt (.cls (fun c => c = '.')) .endAnchor],
    seqList [litCI "note", .plus wsChar,
      .alt (litCI "this") (litCI "that"), litCI ":", .star wsChar,
      .grp (.plusLazy dotChar), .alt (.cls (fun c => c = '.')) .endAnchor],
    seqList [litCI "important:", .star wsChar,
      .grp (.plusLazy dotChar), .alt (.cls (fun c => c = '.')) .endAnchor] ]

/-- The subject heuristic `\b([A-Z][a-z]+)\b` (`extract_subject`): find
the first position with a word boundary before, an ASCII capital, a
maximal nonempty run of ASCII lowercase letters, and a word boundary
after.  The quantifier cannot backtrack below the maximal run, because
any shorter run is followed by a lowercase word character. -/
def extract_subject_scan : Option Char → List Char → Option String
  | _, [] => none
  | prev, c :: rest =>
    let boundary_before := prev.all (fun p => ¬ wordChar p)
    if boundary_before ∧ 'A' ≤ c ∧ c ≤ 'Z' then
      let run := rest.takeWhile (fun d => 'a' ≤ d ∧ d ≤ 'z')
      let after := rest.drop run.length
      if 1 ≤ run.length ∧ after.head?.all (fun d => ¬ wordChar d) then
        some (String.mk (c :: run))
      else extract_subject_scan (some c) rest
    else extract_subject_scan (some c) rest

/-- Extract subject from content: first capitalized word
(`extract_subject`). -/
def extract_subject (content : String) : Option String :=
  extract_subject_scan none content.toList

/-- Truncate a statement to `max_len` characters
(`truncate_statement`); the length test is on bytes, as in the Rust. -/
def truncate_statement (content : String) (max_len : ℕ) : String :=
  let cleaned := content.toList.take max_len
  if max_len < byteLen content then String.mk (trimRightChars cleaned) ++ "..."
  else String.mk cleaned

/-- Extracted fact from an episode (`ExtractedFact`). -/
structure ExtractedFact where
  kind : String
  statement : String
  subject : String
  predicate : String
  object : String
  topics : List String
  confidence : ℚ
  source_episode : ℕ
  source_agent : Option String
  deriving Repr, DecidableEq

/-- The decision-pattern loop: first pattern that matches with a
nonempty first capture wins. -/
def findDecision : List (Rx × String) → List Char → Option (String × String)
  | [], _ => none
  | (rx, pred) :: rest, content =>
    match searchRx rx content with
    | some caps =>
      let object := caps.getD 0 ""
      if ¬ object.isEmpty then some (pred, object)
      else findDecision rest content
    | none => findDecision rest content

/-- The preference-pattern loop: needs nonempty subject (group 1) and
object (group 2). -/
def findPreference :
    List (Rx × String) → List Char → Option (String × String × String)
  | [], _ => none
  | (rx, pred) :: rest, content =>
    match searchRx rx content with
    | some caps =>
      let subject := caps.getD 0 ""
      let object := caps.getD 1 ""
      if ¬ subject.isEmpty ∧ ¬ object.isEmpty then some (pred, subject, object)
      else findPreference rest content
    | none => findPreference rest content

/-- The marker-pattern loop: needs a nonempty captured statement. -/
def findMarker : List Rx → List Char → Option String
  | [], _ => none
  | rx :: rest, content =>
    match searchRx rx content with
    | some caps =>
      let statement := caps.getD 0 ""
      if ¬ statement.isEmpty then some statement
      else findMarker rest content
    | none => findMarker rest content

/-- Rule-based fact extraction (`extract_fact_from_episode`): decision
patterns, then preference patterns, then explicit markers, then the
high-importance fallback. -/
def extract_fact_from_episode (episode : EpisodeRow) : Option ExtractedFact :=
  let content := episode.content
  let cl := content.toList
  match findDecision decision_patterns cl with
  | some po =>
    some
      { kind := "decision", statement := truncate_statement content 200,
        subject := (extract_subject content).getD "team",
        predicate := po.1, object := po.2, topics := episode.topics,
        confidence := 90/100, source_episode := episode.id,
        source_agent := some episode.agent_id }
  | none =>
  match findPreference preference_patterns cl with
  | some pso =>
    some
      { kind := "preference", statement := truncate_statement content 200,
        subject := pso.2.1, predicate := pso.1, object := pso.2.2,
        topics := episode.topics, confidence := 80/100,
        source_episode := episode.id, source_agent := some episode.agent_id }
  | none =>
  match findMarker marker_patterns cl with
  | some statement =>
    some
      { kind := "fact", statement := statement,
        subject := (extract_subject statement).getD "context",
        predicate := "is", object := truncate_statement statement 50,
        topics := episode.topics, confidence := 85/100,
        source_episode := episode.id, source_agent := some episode.agent_id }
  | none =>
  if 8/10 ≤ episode.importance then
    some
      { kind := "fact", statement := truncate_statement content 200,
        subject := "context", predicate := "contains",
        object := String.mk (cl.take 50) ++ "...",
        topics := episode.topics, confidence := 70/100,
        source_episode := episode.id, source_agent := some episode.agent_id }
  else none

/-- Consolidation configuration. -/
structure ConsolidationConfig where
  interval_minutes : ℕ
  idle_threshold_seconds : ℕ
  cpu_threshold_percent : ℕ
  importance_threshold : ℚ
  repetition_threshold : ℕ
  retrieval_threshold : ℕ
  deriving Repr, DecidableEq

/-- The `Default` values of `ConsolidationConfig`. -/
def ConsolidationConfig.default : ConsolidationConfig :=
  { interval_minutes := 15, idle_threshold_seconds := 60,
    cpu_threshold_percent := 80, importance_threshold := 8/10,
    repetition_threshold := 3, retrieval_threshold := 5 }

/-- The trigger-phrase lexicon of the candidate query, as `ILIKE`
patterns (a doubled quote inside a SQL string literal is a single
quote, so these carry single apostrophes). -/
def trigger_phrases : List String :=
  ["decided", "let\x27s go with", "the plan is", "we\x27ll use",
   "going with", "prefer", "love", "hate", "always", "never", "favorite",
   "remember this", "note that", "important:"]

/-- The `WHERE` clause of `fetch_promotion_candidates`: unconsolidated,
unpruned, and important, frequently retrieved, or containing a trigger
phrase. -/
def is_promotion_candidate (e : EpisodeRow) (config : ConsolidationConfig) :
    Bool :=
  e.consolidated_at.isNone && !e.pruned &&
    (config.importance_threshold ≤ e.importance
      || config.retrieval_threshold ≤ e.retrieval_count
      || trigger_phrases.any (fun p => containsCI e.content p))

/-- Conflict-resolution configuration. -/
structure ConflictResolutionConfig where
  auto_supersede_confidence_delta : ℚ
  review_inbox : String
  deriving Repr, DecidableEq

/-- The `semantic_facts` table plus the id sequence and the review
inbox file, which the model tracks as an entry count. -/
structure FactStore where
  facts : List SemFact
  next_id : ℕ
  review_inbox_entries : ℕ
  deriving Repr, DecidableEq

/-- Result of upserting a fact (`FactUpsertResult`). -/
inductive FactUpsertResult where
  | created (id : ℕ)
  | updated (id : ℕ)
  | superseded (old : ℕ) (new : ℕ)
  | flagged (existing : ℕ) (new_statement : String)
  | skipped
  deriving Repr, DecidableEq

/-- The conflict-target filter of `upsert_fact`: same subject and
predicate, not pruned, not superseded. -/
def activeKeyMatch (subject predicate : String) (f : SemFact) : Bool :=
  f.subject == subject && f.predicate == predicate
    && !f.pruned && f.superseded_by.isNone

/-- The row created by `insert_fact`: the SQL defaults give salience
`1.0`, a singleton `source_episodes`, and unflagged active status. -/
def mkInserted (s : FactStore) (fact : ExtractedFact) : SemFact :=
  { id := s.next_id, kind := fact.kind, statement := fact.statement,
    subject := fact.subject, predicate := fact.predicate,
    object := fact.object, confidence := fact.confidence,
    salience := 1, source_episodes := [fact.source_episode],
    source_agent := fact.source_agent, topics := fact.topics,
    retrieval_count := 0, last_retrieved_at := none,
    superseded_by := none, flagged_for_review := false,
    pruned := false }

/-- Insert a new fact (`insert_fact`), returning its generated id. -/
def insert_fact (s : FactStore) (fact : ExtractedFact) : ℕ × FactStore :=
  (s.next_id,
   { s with
     facts := s.facts ++ [mkInserted s fact],
     next_id := s.next_id + 1 })

/-- Case-insensitive mutual-substring test (`are_objects_compatible`). -/
def are_objects_compatible (obj1 obj2 : String) : Bool :=
  containsSub (lowerChars obj1) (lowerChars obj2)
    || containsSub (lowerChars obj2) (lowerChars obj1)

/-- The row-level effect of the refinement `UPDATE`: concatenate
objects, bump confidence by `0.05` capped at `1`, append the source
episode. -/
def refineRow (fact : ExtractedFact) (f : SemFact) : SemFact :=
  { f with
    object := f.object ++ " " ++ fact.object,
    confidence := min (f.confidence + 5/100) 1,
    source_episodes := f.source_episodes ++ [fact.source_episode] }

/-- The row-level effect of `SET superseded_by = new_id`. -/
def supersedeRow (new_id : ℕ) (f : SemFact) : SemFact :=
  { f with superseded_by := some new_id }

/-- The row-level effect of `SET flagged_for_review = true`. -/
def flagRow (f : SemFact) : SemFact :=
  { f with flagged_for_review := true }

/-- Refinement update (`update_fact`). -/
def update_fact (s : FactStore) (id : ℕ) (fact : ExtractedFact) : FactStore :=
  { s with facts := s.facts.map (fun f =>
      if f.id = id then refineRow fact f else f) }

/-- Mark a fact as superseded by another. -/
def set_superseded (s : FactStore) (old_id new_id : ℕ) : FactStore :=
  { s with facts := s.facts.map (fun f =>
      if f.id = old_id then supersedeRow new_id f else f) }

/-- Set `flagged_for_review` on a fact. -/
def set_flagged (s : FactStore) (id : ℕ) : FactStore :=
  { s with facts := s.facts.map (fun f =>
      if f.id = id then flagRow f else f) }

/-- Flag a conflict (`flag_conflict`): insert the new fact, flag both
rows, and append a review-inbox entry unless the existing fact was
already flagged. -/
def flag_conflict (s : FactStore) (existing_id : ℕ) (fact : ExtractedFact)
    (already_flagged : Bool) : FactStore :=
  let ins := insert_fact s fact
  let s2 := set_flagged (set_flagged ins.2 existing_id) ins.1
  if already_flagged then s2
  else { s2 with review_inbox_entries := s2.review_inbox_entries + 1 }

/-- Conflict resolution and upsert (`upsert_fact`): refine on
compatible objects, always supersede on decisions, supersede on a
confidence jump of at least the configured delta, otherwise flag. -/
def upsert_fact (s : FactStore) (fact : ExtractedFact)
    (conflict_config : ConflictResolutionConfig) :
    FactUpsertResult × FactStore :=
  match s.facts.find? (activeKeyMatch fact.subject fact.predicate) with
  | none =>
    let ins := insert_fact s fact
    (.created ins.1, ins.2)
  | some existing =>
    let objects_compatible := are_objects_compatible existing.object fact.object
    let confidence_delta := fact.confidence - existing.confidence
    let is_decision := fact.kind == "decision"
    if objects_compatible && !is_decision then
      (.updated existing.id, update_fact s existing.id fact)
    else if is_decision then
      let ins := insert_fact s fact
      (.superseded existing.id ins.1, set_superseded ins.2 existing.id ins.1)
    else if conflict_config.auto_supersede_confidence_delta ≤ confidence_delta then
      let ins := insert_fact s fact
      (.superseded existing.id ins.1, set_superseded ins.2 existing.id ins.1)
    else
      (.flagged existing.id fact.statement,
       flag_conflict s existing.id fact existing.flagged_for_review)

/-- Number of active facts for a `(subject, predicate)` key:
`pruned = false AND superseded_by IS NULL`. -/
def countActive (s : FactStore) (subject predicate : String) : ℕ :=
  (s.facts.filter (activeKeyMatch subject predicate)).length

/-! ### Derived predicates used by the claims -/

/-- A store is well formed when fact ids are distinct and below the id
sequence value; every store reachable from an empty table satisfies
this. -/
def FactStore.WellFormed (s : FactStore) : Prop :=
  (s.facts.map (fun f => f.id)).Nodup ∧ ∀ f ∈ s.facts, f.id < s.next_id

/-- Whether an upsert ended in the flag resolution. -/
def FactUpsertResult.isFlagged : FactUpsertResult → Bool
  | .flagged _ _ => true
  | _ => false

/-- Whether a search outcome is one of the error payloads. -/
def SearchOutcome.isError : SearchOutcome → Bool
  | .results _ _ _ => false
  | _ => true

/-- The spread score a result assigns to a node id. -/
def SpreadResult.spreadOf (r : SpreadResult) (k : ℕ) : Option ℚ :=
  (r.nodes.find? (fun n => n.id = k)).map (fun n => n.spread_score)

/-! ### Concrete fixtures

Inputs taken from the unit tests and the literal scenarios of the
specification, used by the claim theorems, witnesses and
counterexamples. -/

/-- A single unit-score anchor on node 1. -/
def anchorOn1 : ActivationNode :=
  { id := 1, node_type := "episode", cosine_score := 1,
    spread_score := 0, structural_score := 0, final_score := 0 }

/-- The chain `1 → 2 → 3` with unit weights. -/
def chainEdges : List GraphEdge :=
  [{ from_id := 1, to_id := 2, to_type := "episode", weight := 1 },
   { from_id := 2, to_id := 3, to_type := "episode", weight := 1 }]

/-- A configuration with spreading strength `1/2` and pure activation
weighting, at a chosen iteration count. -/
def chainConfig (n : ℕ) : RetrievalConfig :=
  { decay_factor := 0, spreading_strength := 1/2, iterations := n,
    anchor_top_k_episodes := 10, anchor_top_k_facts := 10,
    weight_similarity := 0, weight_activation := 1,
    weight_structural := 0, confidence_gate := 0 }

/-- The retrieval configuration of the graph unit tests. -/
def testRetrievalConfig : RetrievalConfig :=
  { decay_factor := 15/100, spreading_strength := 17/20, iterations := 3,
    anchor_top_k_episodes := 10, anchor_top_k_facts := 10,
    weight_similarity := 1/2, weight_activation := 3/10,
    weight_structural := 1/5, confidence_gate := 12/100 }

/-- An episode fixture with the given content and importance. -/
def testEpisode (content : String) (importance : ℚ) : EpisodeRow :=
  { id := 7, session_id := 1, agent_id := "test", content := content,
    importance := importance, salience := 1/2, emotional_tone := 0,
    retrieval_count := 0, last_retrieved_at := none, created_at := 0,
    consolidated_at := none, pruned := false, topics := [], entities := [] }

/-- The pre-state fact of the flag scenario of the specification:
`{subject: FlagTest, predicate: value, object: A, confidence: 0.7}`. -/
def flagTestFact : SemFact :=
  { id := 0, kind := "fact", statement := "first", subject := "FlagTest",
    predicate := "value", object := "A", confidence := 7/10, salience := 1,
    source_episodes := [90], source_agent := some "test", topics := [],
    retrieval_count := 0, last_retrieved_at := none, superseded_by := none,
    flagged_for_review := false, pruned := false }

/-- The store holding only the flag-scenario fact. -/
def flagTestStore : FactStore :=
  { facts := [flagTestFact], next_id := 1, review_inbox_entries := 0 }

/-- The conflicting extraction of the flag scenario:
`{object: B, confidence: 0.75, kind: fact}`. -/
def flagTestExtracted : ExtractedFact :=
  { kind := "fact", statement := "second", subject := "FlagTest",
    predicate := "value", object := "B", topics := [],
    confidence := 75/100, source_episode := 91,
    source_agent := some "test" }

/-- The conflict-resolution configuration of the tests. -/
def testConflictConfig : ConflictResolutionConfig :=
  { auto_supersede_confidence_delta := 15/100, review_inbox := "review.md" }

/-- An embedding-client configuration with one output dimension and the
default three retries. -/
def testEmbeddingConfig : EmbeddingConfig :=
  { api_key := "k", model := "m", dimensions := 1, max_retries := 3,
    retry_delay_ms := 1000 }

/-- A 400 rejection with a parseable error body. -/
def resp400 : HttpResponse :=
  { status := 400, error_detail := some (400, "Bad Request"),
    body_text := "body", values := none }

/-- A success response with a valid one-dimensional embedding. -/
def respOk200 : HttpResponse :=
  { status := 200, error_detail := none, body_text := "", values := some [3] }

/-- A NULL-vector episode row awaiting backfill. -/
def reembedRow (i : ℕ) (created : ℤ) : VecRow :=
  { id := i, source_type := "episode", content := some "c",
    source := some "s", vector := none, created_at := created,
    last_accessed := none, access_count := none, importance := none,
    expires_at := none, pruned := false }

/-- Three NULL-vector rows, newest first under the batch ordering. -/
def reembedStore : List VecRow :=
  [reembedRow 1 30, reembedRow 2 20, reembedRow 3 10]

/-- The server-side embedding configuration of the re-embed tests. -/
def testServerEmbeddingConfig : ServerEmbeddingConfig :=
  { rate_limit_rpm := 0, reembed_interval_minutes := 10,
    reembed_batch_size := 50, reembed_enabled := true }

/-- A vector row carrying an embedding, retrievable as an anchor. -/
def searchRow1 : VecRow :=
  { id := 1, source_type := "episode", content := some "anchor content",
    source := some "episode", vector := some [1], created_at := 0,
    last_accessed := none, access_count := none, importance := none,
    expires_at := none, pruned := false }

/-- A store with the single searchable row. -/
def searchDb : MemDb :=
  { episodes := [], facts := [], vectors := [searchRow1] }

/-- An edge from the anchor to a node that has no vector row. -/
def searchEdges : List GraphEdge :=
  [{ from_id := 1, to_id := 2, to_type := "fact", weight := 9/10 }]

/-- A concrete distance function for the search scenarios. -/
def distZero : List ℚ → List ℚ → ℚ := fun _ _ => 0

/-- The id list of a results outcome, `none` on the error outcomes. -/
def SearchOutcome.resultIds : SearchOutcome → Option (List ℕ)
  | .results items _ _ => some (items.map (fun r => r.id))
  | _ => none

/-- The single result item of the spreading search scenario. -/
def searchResultItem : SearchResult :=
  { id := 1, content := "anchor content", source := "episode",
    score := 4/5, cosine_score := 1, spread_score := 1,
    structural_score := 0, created_at := 0 }

/-! ### Claims about the graph activation core (C2, C9) -/

/-- Claim C2, counterexample.  The claim asserts that within one
spreading iteration the activation map is read live, so that on a chain
a contribution received earlier in the iteration compounds into what
that node propagates later in the same iteration.  On the chain
`1 → 2 → 3` (unit weights, strength `1/2`, one iteration) live reading
in the order `1, 2, 3` would give node 3 the spread `1/4`, but
`spread_activation_core` gives node 3 spread `0`: the code iterates a
snapshot of the activation map and merges the delta map only after the
pass over the nodes. -/
theorem spread_iteration_not_live :
    (spread_activation_core [anchorOn1] chainEdges (chainConfig 1)).spreadOf 3
      = some 0
    ∧ getQ (specLiveIteration chainEdges (1/2) [1, 2, 3] [(1, 1)]) 3 = 1/4 := by
  constructor
  · with_unfolding_all decide
  · with_unfolding_all decide

/-- Claim C2, amended.  Each spreading iteration reads the activation
map as of the start of the iteration and accumulates contributions in a
per-iteration delta map that is merged into the activation map by
accumulation after the pass; a contribution received in one iteration
first compounds in the next iteration.  On the chain `1 → 2 → 3` with
unit weights and strength `1/2`: after one iteration node 2 holds `1/2`
and node 3 holds `0`; after two iterations node 2 has accumulated to
`1` and node 3 holds `1/4`, propagated from the value node 2 received
in the first iteration. -/
theorem spread_iteration_snapshot_semantics :
    (spread_activation_core [anchorOn1] chainEdges (chainConfig 1)).spreadOf 2
      = some (1/2)
    ∧ (spread_activation_core [anchorOn1] chainEdges (chainConfig 1)).spreadOf 3
      = some 0
    ∧ (spread_activation_core [anchorOn1] chainEdges (chainConfig 2)).spreadOf 2
      = some 1
    ∧ (spread_activation_core [anchorOn1] chainEdges (chainConfig 2)).spreadOf 3
      = some (1/4) := by
  refine ⟨?_, ?_, ?_, ?_⟩ <;> with_unfolding_all decide

/-- Claim C9, counterexample.  The claim says the returned node set
includes nodes that appear only as edge sources.  With the single
anchor 1 and the single edge `2 → 1`, node 2 is mentioned in the edge
list but the result contains only node 1: the node-type map is seeded
from anchors and edge targets (`to_id`) only, so pure edge sources are
dropped. -/
theorem spread_omits_edge_source_nodes :
    ((spread_activation_core [anchorOn1]
        [{ from_id := 2, to_id := 1, to_type := "episode", weight := 1/2 }]
        testRetrievalConfig).nodes.map (fun n => n.id)) = [1]
    ∧ 2 ∉ ((spread_activation_core [anchorOn1]
        [{ from_id := 2, to_id := 1, to_type := "episode", weight := 1/2 }]
        testRetrievalConfig).nodes.map (fun n => n.id)) := by
  exact ⟨by decide, by decide⟩

/-! ### Claim about consolidation fact extraction (C4) -/

/-- Claim C4, code bug.  The candidate query selects episodes whose
content contains the trigger phrase `let's go with` (the doubled quote
in the SQL literal is an escaped single quote), but the decision regex
for the same phrase carries a literal doubled apostrophe
(`let''s\s+go\s+with`), copied from the SQL escaping, so it can never
match the episode content: extraction returns no fact at all, not a
decision fact with confidence 0.90.  The phrase `decided`, whose
pattern has no apostrophe, behaves exactly as the claim describes. -/
theorem lets_go_with_selected_but_extracts_nothing :
    is_promotion_candidate (testEpisode "let\x27s go with Rust" (1/2))
      ConsolidationConfig.default = true
    ∧ extract_fact_from_episode (testEpisode "let\x27s go with Rust" (1/2))
      = none
    ∧ (extract_fact_from_episode
        (testEpisode "We decided to use Rust for all backend services" (1/2))).map
        (fun f => (f.kind, f.confidence, f.predicate, f.subject))
      = some ("decision", 90/100, "uses", "We") := by
  refine ⟨?_, ?_, ?_⟩ <;> with_unfolding_all decide

/-! ### Claim about the flag resolution (C1) -/

/-- Claim C1, counterexample.  Pre-state: one active fact
`(FlagTest, value)` with object `A` and confidence `0.7`.  Upserting an
extracted fact with incompatible object `B`, confidence `0.75` and a
non-decision kind takes the flag resolution, which inserts the new fact
while leaving the old one active: the post-state holds two facts with
`pruned = false` and `superseded_by = NULL` for the same
`(subject, predicate)`. -/
theorem flag_conflict_leaves_two_active_facts :
    (upsert_fact flagTestStore flagTestExtracted testConflictConfig).1.isFlagged
      = true
    ∧ countActive (upsert_fact flagTestStore flagTestExtracted
        testConflictConfig).2 "FlagTest" "value" = 2 := by
  exact ⟨by with_unfolding_all decide, by with_unfolding_all decide⟩

/-! ### Claim about the re-embed worker (C8) -/

/-- Claim C8.  With three NULL-vector rows and a backend answering
`Some(v)` twice then `None`, one tick embeds the first two rows, stops
the batch at the `None`, accounts the remainder as skipped and reports
`(embedded = 2, skipped = 1)`; the third row keeps its NULL vector.
With a backend failing only on the first call, the `Err` skips just
that row and the tick continues, embedding the other two rows. -/
theorem run_reembed_tick_stop_and_skip_spec :
    (run_reembed_tick reembedStore
        (fun n => if n < 2 then .ok (some [1]) else .ok none)
        testServerEmbeddingConfig).1 = (2, 1)
    ∧ 1 ≤ (run_reembed_tick reembedStore
        (fun n => if n < 2 then .ok (some [1]) else .ok none)
        testServerEmbeddingConfig).1.2
    ∧ ((run_reembed_tick reembedStore
        (fun n => if n < 2 then .ok (some [1]) else .ok none)
        testServerEmbeddingConfig).2.map (fun r => (r.id, r.vector)))
      = [(1, some [1]), (2, some [1]), (3, none)]
    ∧ (run_reembed_tick reembedStore
        (fun n => if n = 0 then .error () else .ok (some [1]))
        testServerEmbeddingConfig).1 = (2, 1)
    ∧ ((run_reembed_tick reembedStore
        (fun n => if n = 0 then .error () else .ok (some [1]))
        testServerEmbeddingConfig).2.map (fun r => (r.id, r.vector)))
      = [(1, none), (2, some [1]), (3, some [1])] := by
  exact ⟨by decide, by decide, by decide, by decide, by decide⟩

/-! ### Claims about the embedding retry client (C5) -/

/-- Claim C5, counterexample.  The claim says a non-429 4xx rejection
is surfaced immediately as `Api{code, message}` without retrying.  A
single attempt against a 400 response indeed produces `Api{400, ...}`,
but the retry loop retries it unconditionally: with a valid success on
the second attempt the call returns the embedding and no `Api` error is
surfaced. -/
theorem non_429_4xx_error_is_retried :
    embed_once testEmbeddingConfig resp400 = .error (.api 400 "Bad Request")
    ∧ embed_with_task testEmbeddingConfig
        (fun n => if n = 0 then resp400 else respOk200) = .ok [3] := by
  exact ⟨by with_unfolding_all rfl, by with_unfolding_all rfl⟩

/-! ### Claim about the salience equation (C3) -/

/-- Claim C3.  For every current salience `S`, retrieval count `r`,
creation time, optional last-access time, emotional tone `E` and decay
configuration, `calculate_salience` returns
`clamp01(S · exp(-t/τ_eff) · (1 + α·f) · (1 + β·E))` with
`τ_eff = τ₀ · μ^r`, `t` the days since last access (since creation when
never accessed), `f = min(1, r / max(1, days alive))` and `E` clamped
to `[0, 1]`; and on a just-accessed item (`last = now`) the decay
factor is `exp 0 = 1`, so the result is
`clamp01(S · (1 + α·f) · (1 + β·E))`. -/
theorem calculate_salience_formula_spec (S : ℝ) (r : ℤ) (created : ℤ)
    (last : Option ℤ) (E : ℝ) (config : DecayConfig) (now : ℤ) :
    calculate_salience S r created last E config now
      = clamp01 (S
          * Real.exp (-(((now - last.getD created : ℤ) : ℝ) / 86400)
              / (config.base_tau_days * config.ltp_multiplier ^ r))
          * (1 + config.frequency_weight
              * min 1 ((r : ℝ) / max 1 (((now - created : ℤ) : ℝ) / 86400)))
          * (1 + config.emotional_weight * clamp01 E))
    ∧ calculate_salience S r created (some now) E config now
      = clamp01 (S
          * (1 + config.frequency_weight
              * min 1 ((r : ℝ) / max 1 (((now - created : ℤ) : ℝ) / 86400)))
          * (1 + config.emotional_weight * clamp01 E)) := by
  constructor
  · simp only [calculate_salience, clamp01, Option.getD]
    rw [min_comm (1 : ℝ), max_comm (1 : ℝ)]
  · simp only [calculate_salience, clamp01, Option.getD, sub_self,
      Int.cast_zero, zero_div, neg_zero, Real.exp_zero, mul_one]
    rw [min_comm (1 : ℝ), max_comm (1 : ℝ)]

/-! ### Claim about retrieval recording (C7) -/

/-- Claim C7.  `record_retrieval` increments the kind-appropriate
counter by one (so the counter never decreases), stamps the matching
last-retrieved or last-accessed time with `now` (so the stamp never
moves backwards when the previous stamp was not in the future), and
applies the LTP boost: episode salience times `1.1` capped at `1`, fact
confidence plus `0.02` and fact salience times `1.1` each capped at
`1`, vector importance times `1.05` capped at `1` — the boosted scalar
never exceeds `1`. -/
theorem record_retrieval_spec (e : EpisodeRow) (f : SemFact) (v : VecRow)
    (now prev : ℤ) :
    ((record_retrieval_episode now e).retrieval_count = e.retrieval_count + 1
      ∧ e.retrieval_count ≤ (record_retrieval_episode now e).retrieval_count
      ∧ (record_retrieval_episode now e).last_retrieved_at = some now
      ∧ (record_retrieval_episode now e).salience = min (e.salience * (11/10)) 1
      ∧ (record_retrieval_episode now e).salience ≤ 1
      ∧ (e.last_retrieved_at = some prev → prev ≤ now →
          ∃ t, (record_retrieval_episode now e).last_retrieved_at = some t
            ∧ prev ≤ t))
    ∧ ((record_retrieval_fact now f).retrieval_count = f.retrieval_count + 1
      ∧ f.retrieval_count ≤ (record_retrieval_fact now f).retrieval_count
      ∧ (record_retrieval_fact now f).last_retrieved_at = some now
      ∧ (record_retrieval_fact now f).confidence = min (f.confidence + 2/100) 1
      ∧ (record_retrieval_fact now f).salience = min (f.salience * (11/10)) 1
      ∧ (record_retrieval_fact now f).confidence ≤ 1
      ∧ (record_retrieval_fact now f).salience ≤ 1)
    ∧ ((record_retrieval_vector now v).access_count
          = some (v.access_count.getD 0 + 1)
      ∧ (record_retrieval_vector now v).last_accessed = some now
      ∧ (record_retrieval_vector now v).importance
          = some (min (v.importance.getD (1/2) * (21/20)) 1)
      ∧ ∀ x, (record_retrieval_vector now v).importance = some x → x ≤ 1) := by
  refine ⟨⟨rfl, ?_, rfl, rfl, ?_, ?_⟩, ⟨rfl, ?_, rfl, rfl, rfl, ?_, ?_⟩,
    ⟨rfl, rfl, rfl, ?_⟩⟩
  · simp [record_retrieval_episode]
  · exact min_le_right _ _
  · intro _ hle
    exact ⟨now, rfl, hle⟩
  · simp [record_retrieval_fact]
  · exact min_le_right _ _
  · exact min_le_right _ _
  · intro x hx
    simp only [record_retrieval_vector, Option.some.injEq] at hx
    exact hx ▸ min_le_right _ _

/-- Claim C7, witness.  The episode arm at a concrete row: counter goes
from 2 to 3, stamp is set to 50, salience `0.5 · 1.1 = 0.55` stays
below the cap, and the previous stamp 40 does not move backwards. -/
theorem record_retrieval_spec_witness :
    (record_retrieval_episode 50
        { id := 1, session_id := 1, agent_id := "a", content := "c",
          importance := 1/2, salience := 1/2, emotional_tone := 0,
          retrieval_count := 2, last_retrieved_at := some 40, created_at := 0,
          consolidated_at := none, pruned := false, topics := [],
          entities := [] }).retrieval_count = 2 + 1
    ∧ (record_retrieval_episode 50
        { id := 1, session_id := 1, agent_id := "a", content := "c",
          importance := 1/2, salience := 1/2, emotional_tone := 0,
          retrieval_count := 2, last_retrieved_at := some 40, created_at := 0,
          consolidated_at := none, pruned := false, topics := [],
          entities := [] }).salience ≤ 1
    ∧ ∃ t, (record_retrieval_episode 50
        { id := 1, session_id := 1, agent_id := "a", content := "c",
          importance := 1/2, salience := 1/2, emotional_tone := 0,
          retrieval_count := 2, last_retrieved_at := some 40, created_at := 0,
          consolidated_at := none, pruned := false, topics := [],
          entities := [] }).last_retrieved_at = some t ∧ (40 : ℤ) ≤ t := by
  obtain ⟨⟨h1, _, _, _, h5, h6⟩, _, _⟩ :=
    record_retrieval_spec
      { id := 1, session_id := 1, agent_id := "a", content := "c",
        importance := 1/2, salience := 1/2, emotional_tone := 0,
        retrieval_count := 2, last_retrieved_at := some 40, created_at := 0,
        consolidated_at := none, pruned := false, topics := [],
        entities := [] }
      { id := 0, kind := "fact", statement := "s", subject := "s",
        predicate := "p", object := "o", confidence := 1/2, salience := 1/2,
        source_episodes := [], source_agent := none, topics := [],
        retrieval_count := 0, last_retrieved_at := none,
        superseded_by := none, flagged_for_review := false, pruned := false }
      { id := 0, source_type := "query", content := none, source := none,
        vector := none, created_at := 0, last_accessed := none,
        access_count := none, importance := none, expires_at := none,
        pruned := false }
      50 40
  exact ⟨h1, h5, h6 rfl (by norm_num)⟩

/-! ### Claim C5, amended theorem -/

/-- Claim C5, amended.  The retry loop retries on every error — a
non-429 4xx rejection included — making one initial attempt plus up to
`max_retries` retries; when every attempt up to that budget fails, the
error returned is `RetryExhausted{attempts}` with `attempts` equal to
`max_retries`, whose constructor default is 3. -/
theorem embed_retry_any_error_and_exhaustion
    (config : EmbeddingConfig) (responses : ℕ → HttpResponse)
    (h : ∀ i, i ≤ config.max_retries →
      ∃ er, embed_once config (responses i) = .error er) :
    embed_with_task config responses
      = .error (.retryExhausted config.max_retries)
    ∧ ∀ key env model dims,
        (EmbeddingConfig.new key env model dims).max_retries = 3 := by
  constructor
  · have main : ∀ remaining idx,
        (∀ j, j ≤ remaining →
          ∃ er, embed_once config (responses (idx + j)) = .error er) →
        ∃ er, retryAttempts config responses remaining idx = .error er := by
      intro remaining
      induction remaining with
      | zero =>
        intro idx hj
        obtain ⟨er, her⟩ := hj 0 (Nat.le_refl 0)
        simp only [Nat.add_zero] at her
        exact ⟨er, by simp [retryAttempts, her]⟩
      | succ n ih =>
        intro idx hj
        obtain ⟨er, her⟩ := hj 0 (Nat.zero_le _)
        simp only [Nat.add_zero] at her
        obtain ⟨er2, her2⟩ := ih (idx + 1) (fun j hjle => by
          have := hj (j + 1) (Nat.succ_le_succ hjle)
          simpa [Nat.add_assoc, Nat.add_comm 1 j] using this)
        exact ⟨er2, by simp [retryAttempts, her, her2]⟩
    obtain ⟨er, her⟩ := main config.max_retries 0 (fun j hjle => by
      simpa using h j hjle)
    simp [embed_with_task, her]
  · intro key env model dims
    cases key <;> rfl

/-- Claim C5, amended theorem witness: a backend that answers 400 on
every attempt exhausts the default 3 retries and reports
`RetryExhausted{3}`. -/
theorem embed_retry_any_error_and_exhaustion_witness :
    embed_with_task testEmbeddingConfig (fun _ => resp400)
      = .error (.retryExhausted 3)
    ∧ (EmbeddingConfig.new none none "gemini-embedding-001" 768).max_retries
      = 3 := by
  obtain ⟨h1, h2⟩ :=
    embed_retry_any_error_and_exhaustion testEmbeddingConfig (fun _ => resp400)
      (fun i _ => ⟨.api 400 "Bad Request", rfl⟩)
  exact ⟨h1, h2 none none "gemini-embedding-001" 768⟩

/-! ### Claim C9, amended theorem -/

theorem mem_keys_foldl_putA {β : Type} (g : β → ℕ) (hv : β → α) (l : List β)
    (m0 : List (ℕ × α)) (k : ℕ) :
    (k ∈ (l.foldl (fun m x => putA m (g x) (hv x)) m0).map Prod.fst
      ↔ k ∈ l.map g ∨ k ∈ m0.map Prod.fst) := by
  induction l generalizing m0 with
  | nil => simp
  | cons x xs ih =>
    simp only [List.foldl_cons, List.map_cons, List.mem_cons, ih, mem_keys_putA]
    tauto

theorem getQ_foldl_addTo {β : Type} (g : β → ℕ) (l : List β)
    (m0 : List (ℕ × ℚ)) (k : ℕ) :
    getQ (l.foldl (fun m x => addTo m (g x) 1) m0) k
      = getQ m0 k + ((l.filter (fun x => decide (g x = k))).length : ℚ) := by
  induction l generalizing m0 with
  | nil => simp
  | cons x xs ih =>
    simp only [List.foldl_cons, ih, getQ_addTo, List.filter_cons]
    by_cases hx : g x = k
    · rw [if_pos hx, if_pos (decide_eq_true hx), List.length_cons]
      push_cast
      ring
    · rw [if_neg hx, if_neg (by simpa using hx)]
      ring

/-- Claim C9, amended.  For every non-empty anchor list and non-empty
edge list, `spread_activation_core` returns exactly the nodes mentioned
in the anchors or appearing as edge targets (`to_id`) — nodes that
appear only as edge sources are omitted — sorted by final score
descending, where each node's final score is
`w_s · cosine + w_a · spread + w_r · structural` and its structural
score is `in_degree / |edges|`. -/
theorem spread_nodes_membership_and_ranking (anchors : List ActivationNode)
    (edges : List GraphEdge) (config : RetrievalConfig)
    (ha : anchors ≠ []) (he : edges ≠ []) :
    (∀ n ∈ (spread_activation_core anchors edges config).nodes,
        (n.id ∈ anchors.map (fun a => a.id)
          ∨ n.id ∈ edges.map (fun e => e.to_id))
        ∧ n.final_score = config.weight_similarity * n.cosine_score
            + config.weight_activation * n.spread_score
            + config.weight_structural * n.structural_score
        ∧ n.structural_score
            = ((edges.filter (fun e => decide (e.to_id = n.id))).length : ℚ)
              / (edges.length : ℚ))
    ∧ (∀ k, (k ∈ anchors.map (fun a => a.id)
          ∨ k ∈ edges.map (fun e => e.to_id)) →
        ∃ n ∈ (spread_activation_core anchors edges config).nodes, n.id = k)
    ∧ (spread_activation_core anchors edges config).nodes.Pairwise
        (fun n1 n2 => n2.final_score ≤ n1.final_score) := by
  have h1 : anchors.isEmpty = false := by
    cases anchors with
    | nil => exact absurd rfl ha
    | cons a as => rfl
  have h2 : edges.isEmpty = false := by
    cases edges with
    | nil => exact absurd rfl he
    | cons e es => rfl
  simp only [spread_activation_core, h1, h2, Bool.false_eq_true, if_false]
  refine ⟨?_, ?_, ?_⟩
  · intro n hn
    rw [mem_sortOn] at hn
    obtain ⟨entry, hentry, rfl⟩ := List.mem_map.mp hn
    refine ⟨?_, rfl, ?_⟩
    · have hkey : entry.1 ∈
          (edges.foldl (fun m e => putA m e.to_id e.to_type)
            (anchors.foldl (fun m a => putA m a.id a.node_type) [])).map
            Prod.fst :=
        List.mem_map_of_mem Prod.fst hentry
      rw [mem_keys_foldl_putA] at hkey
      rcases hkey with hk | hk
      · exact Or.inr hk
      · rw [mem_keys_foldl_putA] at hk
        rcases hk with hk | hk
        · exact Or.inl hk
        · simp at hk
    · show getQ (edges.foldl (fun m e => addTo m e.to_id 1) []) entry.1
          / (edges.length : ℚ) = _
      rw [getQ_foldl_addTo]
      simp [getQ, findA]
  · intro k hk
    have hkey : k ∈
        (edges.foldl (fun m e => putA m e.to_id e.to_type)
          (anchors.foldl (fun m a => putA m a.id a.node_type) [])).map
          Prod.fst := by
      rw [mem_keys_foldl_putA]
      rcases hk with hk | hk
      · right
        rw [mem_keys_foldl_putA]
        exact Or.inl hk
      · exact Or.inl hk
    obtain ⟨entry, hentry, hfst⟩ := List.mem_map.mp hkey
    refine ⟨_, (mem_sortOn _ _ _).mpr (List.mem_map_of_mem _ hentry), hfst⟩
  · have hp := pairwise_sortOn
      (fun n1 n2 : ActivationNode => decide (n2.final_score ≤ n1.final_score))
      (fun a b => by
        rcases le_total b.final_score a.final_score with hle | hle
        · exact Or.inl (decide_eq_true hle)
        · exact Or.inr (decide_eq_true hle))
      (fun a b c hab hbc =>
        decide_eq_true (le_trans (of_decide_eq_true hbc) (of_decide_eq_true hab)))
    exact (hp _).imp (fun h => of_decide_eq_true h)

/-- Claim C9, amended theorem witness, at the single anchor 1 with the
single edge `1 → 2`: both conclusions instantiated and the hypotheses
discharged on concrete lists. -/
theorem spread_nodes_membership_and_ranking_witness :
    (∀ n ∈ (spread_activation_core [anchorOn1] searchEdges
        testRetrievalConfig).nodes,
        (n.id ∈ [anchorOn1].map (fun a => a.id)
          ∨ n.id ∈ searchEdges.map (fun e => e.to_id))
        ∧ n.final_score = testRetrievalConfig.weight_similarity * n.cosine_score
            + testRetrievalConfig.weight_activation * n.spread_score
            + testRetrievalConfig.weight_structural * n.structural_score
        ∧ n.structural_score
            = ((searchEdges.filter
                (fun e => decide (e.to_id = n.id))).length : ℚ)
              / (searchEdges.length : ℚ))
    ∧ (spread_activation_core [anchorOn1] searchEdges
        testRetrievalConfig).nodes.Pairwise
        (fun n1 n2 => n2.final_score ≤ n1.final_score) := by
  obtain ⟨hmem, _, hsort⟩ :=
    spread_nodes_membership_and_ranking [anchorOn1] searchEdges
      testRetrievalConfig (by simp) (by simp [searchEdges])
  exact ⟨hmem, hsort⟩

/-! ### Claim C1, amended theorem -/

theorem countActive_of_find?_none (s : FactStore) (subj pred : String)
    (h : s.facts.find? (activeKeyMatch subj pred) = none) :
    countActive s subj pred = 0 := by
  have hall := List.find?_eq_none.mp h
  have hnil : s.facts.filter (activeKeyMatch subj pred) = [] := by
    rw [List.filter_eq_nil_iff]
    intro a ha
    simpa using hall a ha
  simp [countActive, hnil]

theorem countActive_insert_fact (s : FactStore) (fact : ExtractedFact) :
    countActive (insert_fact s fact).2 fact.subject fact.predicate
      = countActive s fact.subject fact.predicate + 1 := by
  simp [countActive, insert_fact, mkInserted, List.filter_append,
    activeKeyMatch]

/-- Counting a boolean filter across an id-keyed point modification:
with distinct ids, only the modified element can change the count. -/
theorem length_filter_map_modify (l : List SemFact) (ex : SemFact)
    (g : SemFact → SemFact) (p : SemFact → Bool)
    (hnd : (l.map (fun f => f.id)).Nodup) (hmem : ex ∈ l) :
    ((l.map (fun f => if f.id = ex.id then g f else f)).filter p).length
        + (if p ex = true then 1 else 0)
      = (l.filter p).length + (if p (g ex) = true then 1 else 0) := by
  induction l with
  | nil => cases hmem
  | cons a as ih =>
    simp only [List.map_cons, List.nodup_cons, List.mem_map] at hnd
    obtain ⟨hna, hnd2⟩ := hnd
    rcases List.mem_cons.mp hmem with rfl | hmem2
    · have htail :
          as.map (fun f => if f.id = ex.id then g f else f) = as := by
        conv_rhs => rw [← List.map_id as]
        apply List.map_congr_left
        intro f hf
        have hne : ¬ f.id = ex.id := fun hid => hna ⟨f, hf, hid⟩
        simp [hne]
      simp only [List.map_cons, if_pos rfl, htail, List.filter_cons]
      cases hpg : p (g ex) <;> cases hpe : p ex <;>
        simp [hpg, hpe]
    · have hne : ¬ a.id = ex.id := fun hid => hna ⟨ex, hmem2, hid.symm⟩
      simp only [List.map_cons, if_neg hne, List.filter_cons]
      have hih := ih hnd2 hmem2
      cases hpa : p a <;> simp [hpa] <;> omega

theorem insert_fact_nodup (s : FactStore) (fact : ExtractedFact)
    (hw : s.WellFormed) :
    ((insert_fact s fact).2.facts.map (fun f => f.id)).Nodup := by
  obtain ⟨hnd, hlt⟩ := hw
  simp only [insert_fact, List.map_append, List.map_cons, List.map_nil]
  rw [List.nodup_append]
  refine ⟨hnd, List.nodup_singleton _, ?_⟩
  intro x hx
  simp only [List.mem_singleton]
  intro hx2
  obtain ⟨f, hf, hfid⟩ := List.mem_map.mp hx
  have hflt := hlt f hf
  rw [hfid, hx2] at hflt
  simp [mkInserted] at hflt

theorem map_id_modify (l : List SemFact) (fid : ℕ) (g : SemFact → SemFact)
    (hg : ∀ f, (g f).id = f.id) :
    ((l.map (fun f => if f.id = fid then g f else f)).map (fun f => f.id))
      = l.map (fun f => f.id) := by
  rw [List.map_map]
  apply List.map_congr_left
  intro f _
  by_cases h : f.id = fid <;> simp [h, hg]

theorem activeKeyMatch_refineRow (subj pred : String) (fact : ExtractedFact)
    (f : SemFact) :
    activeKeyMatch subj pred (refineRow fact f) = activeKeyMatch subj pred f :=
  rfl

theorem activeKeyMatch_flagRow (subj pred : String) (f : SemFact) :
    activeKeyMatch subj pred (flagRow f) = activeKeyMatch subj pred f :=
  rfl

theorem activeKeyMatch_supersedeRow (subj pred : String) (nid : ℕ)
    (f : SemFact) :
    activeKeyMatch subj pred (supersedeRow nid f) = false := by
  simp [activeKeyMatch, supersedeRow]

theorem activeKeyMatch_mkInserted (s : FactStore) (fact : ExtractedFact) :
    activeKeyMatch fact.subject fact.predicate (mkInserted s fact) = true := by
  simp [activeKeyMatch, mkInserted]

/-- Claim C1, amended.  Starting from a well-formed store whose
`(subject, predicate)` key holds at most one active fact, the create,
refine and supersede resolutions of `upsert_fact` leave at most one
active fact for that key, but the flag resolution inserts a second
active fact: it leaves exactly two facts with `pruned = false` and
`superseded_by = NULL` for the same `(subject, predicate)`. -/
theorem upsert_fact_active_uniqueness (s : FactStore) (fact : ExtractedFact)
    (cc : ConflictResolutionConfig) (hw : s.WellFormed)
    (hcount : countActive s fact.subject fact.predicate ≤ 1) :
    ((upsert_fact s fact cc).1.isFlagged = false →
      countActive (upsert_fact s fact cc).2 fact.subject fact.predicate ≤ 1)
    ∧ ((upsert_fact s fact cc).1.isFlagged = true →
      countActive (upsert_fact s fact cc).2 fact.subject fact.predicate = 2)
    := by
  have hnd := hw.1
  cases hfind : s.facts.find? (activeKeyMatch fact.subject fact.predicate) with
  | none =>
    have h0 := countActive_of_find?_none s fact.subject fact.predicate hfind
    constructor
    · intro _
      simp only [upsert_fact, hfind]
      rw [countActive_insert_fact, h0]
    · intro hfl
      simp [upsert_fact, hfind, FactUpsertResult.isFlagged] at hfl
  | some ex =>
    have hex_mem : ex ∈ s.facts := List.mem_of_find?_eq_some hfind
    have hex_p : activeKeyMatch fact.subject fact.predicate ex = true :=
      List.find?_some hfind
    have hcount1 : countActive s fact.subject fact.predicate = 1 := by
      refine le_antisymm hcount ?_
      have hmemf : ex ∈ s.facts.filter
          (activeKeyMatch fact.subject fact.predicate) :=
        List.mem_filter.mpr ⟨hex_mem, hex_p⟩
      exact List.length_pos_of_mem hmemf
    have hcount_ins :
        ((insert_fact s fact).2.facts.filter
          (activeKeyMatch fact.subject fact.predicate)).length = 2 := by
      have h2 := countActive_insert_fact s fact
      simp only [countActive] at h2 hcount1
      omega
    have hnd_ins := insert_fact_nodup s fact hw
    have hex_mem_ins : ex ∈ (insert_fact s fact).2.facts := by
      simp [insert_fact, hex_mem]
    simp only [upsert_fact, hfind]
    by_cases hcompat :
        (are_objects_compatible ex.object fact.object
          && !(fact.kind == "decision")) = true
    · rw [if_pos hcompat]
      refine ⟨fun _ => ?_, fun hfl => by
        simp [FactUpsertResult.isFlagged] at hfl⟩
      have hmod := length_filter_map_modify s.facts ex (refineRow fact)
        (activeKeyMatch fact.subject fact.predicate) hnd hex_mem
      simp only [activeKeyMatch_refineRow, hex_p, eq_self_iff_true,
        if_true] at hmod
      simp only [countActive, update_fact]
      simp only [countActive] at hcount1
      omega
    · rw [if_neg hcompat]
      have hsup : countActive
          (set_superseded (insert_fact s fact).2 ex.id (insert_fact s fact).1)
          fact.subject fact.predicate ≤ 1 := by
        have hmod := length_filter_map_modify (insert_fact s fact).2.facts ex
          (supersedeRow (insert_fact s fact).1)
          (activeKeyMatch fact.subject fact.predicate) hnd_ins hex_mem_ins
        simp only [activeKeyMatch_supersedeRow, hex_p, eq_self_iff_true,
          if_true, Bool.false_eq_true, if_false] at hmod
        simp only [countActive, set_superseded]
        omega
      by_cases hdec : (fact.kind == "decision") = true
      · rw [if_pos hdec]
        exact ⟨fun _ => hsup, fun hfl => by
          simp [FactUpsertResult.isFlagged] at hfl⟩
      · rw [if_neg hdec]
        by_cases hdelta : cc.auto_supersede_confidence_delta
            ≤ fact.confidence - ex.confidence
        · rw [if_pos hdelta]
          exact ⟨fun _ => hsup, fun hfl => by
            simp [FactUpsertResult.isFlagged] at hfl⟩
        · rw [if_neg hdelta]
          constructor
          · intro hfl
            simp [FactUpsertResult.isFlagged] at hfl
          · intro _
            have hfc : countActive
                (flag_conflict s ex.id fact ex.flagged_for_review)
                fact.subject fact.predicate
                = ((set_flagged (set_flagged (insert_fact s fact).2 ex.id)
                    (insert_fact s fact).1).facts.filter
                    (activeKeyMatch fact.subject fact.predicate)).length := by
              cases hb : ex.flagged_for_review <;>
                simp [flag_conflict, countActive, hb]
            rw [hfc]
            have hmod1 := length_filter_map_modify (insert_fact s fact).2.facts
              ex flagRow (activeKeyMatch fact.subject fact.predicate)
              hnd_ins hex_mem_ins
            simp only [activeKeyMatch_flagRow, hex_p, eq_self_iff_true,
              if_true] at hmod1
            have hnd2 : ((set_flagged (insert_fact s fact).2 ex.id).facts.map
                (fun f => f.id)).Nodup := by
              have hids := map_id_modify (insert_fact s fact).2.facts ex.id
                flagRow (fun f => rfl)
              simpa [set_flagged, hids] using hnd_ins
            have hid_new : ¬ (mkInserted s fact).id = ex.id := by
              have hlt2 := hw.2 ex hex_mem
              simp only [mkInserted]
              omega
            have hm2 : mkInserted s fact ∈ (insert_fact s fact).2.facts := by
              simp [insert_fact]
            have hnew_mem : mkInserted s fact
                ∈ (set_flagged (insert_fact s fact).2 ex.id).facts := by
              have himg := List.mem_map_of_mem
                (fun f => if f.id = ex.id then flagRow f else f) hm2
              simp only [if_neg hid_new] at himg
              exact himg
            have hmod2 := length_filter_map_modify
              (set_flagged (insert_fact s fact).2 ex.id).facts
              (mkInserted s fact) flagRow
              (activeKeyMatch fact.subject fact.predicate) hnd2 hnew_mem
            simp only [activeKeyMatch_flagRow, activeKeyMatch_mkInserted,
              eq_self_iff_true, if_true] at hmod2
            have hgoal_eq : (set_flagged
                (set_flagged (insert_fact s fact).2 ex.id)
                (insert_fact s fact).1).facts
                = (set_flagged (insert_fact s fact).2 ex.id).facts.map
                  (fun f => if f.id = (mkInserted s fact).id
                    then flagRow f else f) := rfl
            have h1e : (set_flagged (insert_fact s fact).2 ex.id).facts
                = (insert_fact s fact).2.facts.map
                  (fun f => if f.id = ex.id then flagRow f else f) := rfl
            rw [h1e] at hmod2
            rw [hgoal_eq, h1e]
            omega

/-- Concrete instance of the amended C1 theorem: the one-fact flag
scenario store is well-formed with one active fact for its key, and the
flag resolution leaves exactly two active facts there. -/
theorem upsert_fact_active_uniqueness_witness :
    flagTestStore.WellFormed
    ∧ countActive flagTestStore flagTestExtracted.subject
        flagTestExtracted.predicate ≤ 1
    ∧ countActive (upsert_fact flagTestStore flagTestExtracted
        testConflictConfig).2 flagTestExtracted.subject
        flagTestExtracted.predicate = 2 :=
  ⟨⟨by decide, by decide⟩, by with_unfolding_all decide,
    (upsert_fact_active_uniqueness flagTestStore flagTestExtracted
      testConflictConfig ⟨by decide, by decide⟩
      (by with_unfolding_all decide)).2 (by with_unfolding_all decide)⟩

/-! ### Claim about the search error cases (C6) -/

theorem mem_keys_of_findA_some {α : Type} (m : List (ℕ × α)) (k : ℕ) (v : α)
    (h : findA m k = some v) : k ∈ m.map Prod.fst := by
  induction m with
  | nil => simp [findA] at h
  | cons p rest ih =>
    obtain ⟨k1, v1⟩ := p
    by_cases h1 : k1 = k
    · simp [h1]
    · simp only [findA, if_neg h1] at h
      simp [ih h]

/-- When the anchors are in descending cosine order and the similarity
weight is non-negative, the nodes returned by the activation core are in
descending final-score order. -/
theorem spread_core_pairwise (anchors : List ActivationNode)
    (edges : List GraphEdge) (config : RetrievalConfig)
    (hws : 0 ≤ config.weight_similarity)
    (hanch : anchors.Pairwise (fun a b => b.cosine_score ≤ a.cosine_score)) :
    (spread_activation_core anchors edges config).nodes.Pairwise
      (fun a b => b.final_score ≤ a.final_score) := by
  simp only [spread_activation_core]
  split
  · simp
  · split
    · dsimp only
      rw [List.pairwise_map]
      refine hanch.imp ?_
      intro a b h
      dsimp only
      exact mul_le_mul_of_nonneg_left h hws
    · dsimp only
      have htot : ∀ a b : ActivationNode,
          decide (b.final_score ≤ a.final_score) = true
          ∨ decide (a.final_score ≤ b.final_score) = true := by
        intro a b
        rcases le_total b.final_score a.final_score with h | h
        · exact Or.inl (decide_eq_true h)
        · exact Or.inr (decide_eq_true h)
      have htrans : ∀ a b c : ActivationNode,
          decide (b.final_score ≤ a.final_score) = true →
          decide (c.final_score ≤ b.final_score) = true →
          decide (c.final_score ≤ a.final_score) = true :=
        fun a b c h1 h2 => decide_eq_true
          (le_trans (of_decide_eq_true h2) (of_decide_eq_true h1))
      exact (pairwise_sortOn _ htot htrans _).imp
        fun h => of_decide_eq_true h

/-- The assembled search results always come out in descending score
order (for a non-negative similarity weight). -/
theorem searchResults_ranked (db : MemDb) (graph_edges : List GraphEdge)
    (config : RetrievalConfig) (dist : List ℚ → List ℚ → ℚ) (qv : List ℚ)
    (us : Bool) (lim : ℕ) (hws : 0 ≤ config.weight_similarity) :
    ((searchResults db graph_edges config dist qv us lim).map
      (fun r => r.score)).Pairwise (fun a b => b ≤ a) := by
  rw [List.pairwise_map]
  have hrows : (searchRows db dist qv (anchorLimit config us lim)).Pairwise
      (fun r1 r2 => rowDist dist qv r1 ≤ rowDist dist qv r2) := by
    have hp := pairwise_sortOn
      (fun r1 r2 : VecRow => decide (rowDist dist qv r1 ≤ rowDist dist qv r2))
      (fun a b => by
        rcases le_total (rowDist dist qv a) (rowDist dist qv b) with h | h
        · exact Or.inl (decide_eq_true h)
        · exact Or.inr (decide_eq_true h))
      (fun a b c h1 h2 => decide_eq_true
        (le_trans (of_decide_eq_true h1) (of_decide_eq_true h2)))
      (db.vectors.filter (fun r => r.vector.isSome))
    exact (hp.sublist (List.take_sublist _ _)).imp fun h => of_decide_eq_true h
  have hanchRows : (searchAnchorRows db dist qv
      (anchorLimit config us lim)).Pairwise
      (fun t1 t2 => rowDist dist qv t1.1 ≤ rowDist dist qv t2.1) := by
    simp only [searchAnchorRows]
    refine pairwise_filterMap_of_pairwise _ ?_ _ hrows
    intro a b x y hR hfa hfb
    have hx1 : ∀ (r : VecRow) (t : VecRow × String × String),
        (match r.content, r.source with
          | some c, some s => some (r, c, s)
          | _, _ => none) = some t → t.1 = r := by
      intro r t h
      cases hc : r.content with
      | none => simp [hc] at h
      | some c =>
        cases hs : r.source with
        | none => simp [hc, hs] at h
        | some s =>
          simp only [hc, hs, Option.some.injEq] at h
          rw [← h]
    rw [hx1 a x hfa, hx1 b y hfb]
    exact hR
  have hanchors : (searchAnchors db dist qv
      (anchorLimit config us lim)).Pairwise
      (fun a b => b.cosine_score ≤ a.cosine_score
        ∧ b.final_score ≤ a.final_score) := by
    simp only [searchAnchors]
    rw [List.pairwise_map]
    refine hanchRows.imp ?_
    intro t1 t2 h
    dsimp only
    exact ⟨by linarith, by linarith⟩
  have hfinal : (searchFinalNodes db graph_edges config dist qv us
      (anchorLimit config us lim)).Pairwise
      (fun a b => b.final_score ≤ a.final_score) := by
    simp only [searchFinalNodes]
    split
    · exact spread_core_pairwise _ _ _ hws (hanchors.imp fun h => h.1)
    · exact hanchors.imp fun h => h.2
  simp only [searchResults]
  refine pairwise_filterMap_of_pairwise _ ?_ _
    (hfinal.sublist (List.take_sublist _ _))
  intro a b x y hR hfa hfb
  obtain ⟨cssa, hca, hga⟩ := Option.map_eq_some'.mp hfa
  obtain ⟨cssb, hcb, hgb⟩ := Option.map_eq_some'.mp hfb
  rw [← hga, ← hgb]
  dsimp only
  exact hR

/-- Claim C6.  `search_memory` returns an error in exactly three cases:
the query is empty after trimming (`EmptyQuery`), the backend answers
`Ok(None)` (`EmbeddingUnavailable`), or the backend answers `Err`
(`EmbedFailed` with that message); in every other case it returns a
result list ranked by descending score, and every failed search leaves
the store unchanged. -/
theorem search_memory_error_cases_spec (query : String) (limit : Option ℕ)
    (use_spreading : Bool) (db : MemDb) (graph_edges : List GraphEdge)
    (backend : String → Except String (Option (List ℚ)))
    (config : RetrievalConfig) (dist : List ℚ → List ℚ → ℚ) (now : ℤ)
    (hws : 0 ≤ config.weight_similarity) :
    ((search_memory query limit use_spreading db graph_edges backend config
        dist now).1 = .errEmptyQuery
      ↔ (trimChars query.toList).isEmpty = true)
    ∧ ((search_memory query limit use_spreading db graph_edges backend config
        dist now).1 = .errEmbeddingUnavailable
      ↔ (trimChars query.toList).isEmpty = false
        ∧ backend (String.mk (trimChars query.toList)) = .ok none)
    ∧ (∀ msg, (search_memory query limit use_spreading db graph_edges backend
        config dist now).1 = .errEmbedFailed msg
      ↔ (trimChars query.toList).isEmpty = false
        ∧ backend (String.mk (trimChars query.toList)) = .error msg)
    ∧ ((search_memory query limit use_spreading db graph_edges backend config
        dist now).1.isError = true
      → (search_memory query limit use_spreading db graph_edges backend config
          dist now).2 = db)
    ∧ (∀ items qq n, (search_memory query limit use_spreading db graph_edges
        backend config dist now).1 = .results items qq n
      → (items.map (fun r => r.score)).Pairwise (fun a b => b ≤ a)) := by
  by_cases hq : (trimChars query.toList).isEmpty = true
  · have hout : search_memory query limit use_spreading db graph_edges
        backend config dist now = (.errEmptyQuery, db) := by
      simp only [search_memory]
      rw [if_pos hq]
    have hq2 : trimChars query.data = [] := by simpa using hq
    refine ⟨?_, ?_, ?_, ?_, ?_⟩ <;>
      simp [hout, hq2, SearchOutcome.isError]
  · have hq2 : ¬ trimChars query.data = [] := by simpa using hq
    cases hb : backend (String.mk (trimChars query.toList)) with
    | error e =>
      have hout : search_memory query limit use_spreading db graph_edges
          backend config dist now = (.errEmbedFailed e, db) := by
        simp only [search_memory]
        rw [if_neg hq, hb]
      refine ⟨?_, ?_, ?_, ?_, ?_⟩ <;>
        simp [hout, hq2, hb, SearchOutcome.isError]
    | ok o =>
      cases o with
      | none =>
        have hout : search_memory query limit use_spreading db graph_edges
            backend config dist now = (.errEmbeddingUnavailable, db) := by
          simp only [search_memory]
          rw [if_neg hq, hb]
        refine ⟨?_, ?_, ?_, ?_, ?_⟩ <;>
          simp [hout, hq2, hb, SearchOutcome.isError]
      | some qv =>
        have hout : (search_memory query limit use_spreading db graph_edges
            backend config dist now).1
            = .results (searchResults db graph_edges config dist qv
                use_spreading ((limit.map (fun l => min (max l 1) 20)).getD 5))
              (String.mk (trimChars query.toList))
              (searchResults db graph_edges config dist qv use_spreading
                ((limit.map (fun l => min (max l 1) 20)).getD 5)).length := by
          simp only [search_memory]
          rw [if_neg hq, hb]
        refine ⟨?_, ?_, ?_, ?_, ?_⟩
        · simp [hout, hq2]
        · simp [hout, hq2, hb]
        · simp [hout, hq2, hb]
        · simp [hout, SearchOutcome.isError]
        · intro items qq n h
          rw [hout] at h
          injection h with h1 h2 h3
          rw [← h1]
          exact searchResults_ranked _ _ _ _ _ _ _ hws

/-- Concrete instance of the C6 theorem: with weight 1/2 ≥ 0 and a
blank query, the outcome is exactly the empty-query error. -/
theorem search_memory_error_cases_spec_witness :
    (0 : ℚ) ≤ testRetrievalConfig.weight_similarity
    ∧ ((search_memory "  " none false searchDb [] (fun _ => .ok none)
        testRetrievalConfig (fun _ _ => 0) 0).1 = .errEmptyQuery
      ↔ (trimChars "  ".toList).isEmpty = true) :=
  ⟨by norm_num [testRetrievalConfig],
    (search_memory_error_cases_spec "  " none false searchDb []
      (fun _ => .ok none) testRetrievalConfig (fun _ _ => 0) 0
      (by norm_num [testRetrievalConfig])).1⟩

/-! ### Claim about spreading results being anchors (C10) -/

theorem anchorRow_fst_eq (r : VecRow) (t : VecRow × String × String)
    (h : (match r.content, r.source with
      | some c, some s => some (r, c, s)
      | _, _ => none) = some t) : t.1 = r := by
  cases hc : r.content with
  | none => simp [hc] at h
  | some c =>
    cases hs : r.source with
    | none => simp [hc, hs] at h
    | some s =>
      simp only [hc, hs, Option.some.injEq] at h
      rw [← h]

/-- Claim C10.  With spreading enabled, every item returned by
`search_memory` is one of the rows fetched by the vector top-k query:
nodes that spreading discovered only through graph edges are dropped
because their content is never loaded.  Concretely, on the store with a
single anchor row and an edge to a vector-less node, a search with
`limit = 2` returns only the anchor item even though spreading ranked
two nodes. -/
theorem spreading_results_are_anchor_subset :
    (∀ (db : MemDb) (graph_edges : List GraphEdge)
        (config : RetrievalConfig) (dist : List ℚ → List ℚ → ℚ)
        (qv : List ℚ) (us : Bool) (lim : ℕ) (r : SearchResult),
      r ∈ searchResults db graph_edges config dist qv us lim →
      r.id ∈ (searchRows db dist qv (anchorLimit config us lim)).map
        (fun v => v.id))
    ∧ (search_memory "q" (some 2) true searchDb searchEdges
        (fun _ => .ok (some [1])) testRetrievalConfig distZero
        0).1.resultIds = some [1]
    ∧ (searchFinalNodes searchDb searchEdges testRetrievalConfig distZero
        [1] true (anchorLimit testRetrievalConfig true 2)).length = 2 := by
  refine ⟨?_, by with_unfolding_all decide, by with_unfolding_all decide⟩
  intro db ge config dist qv us lim r hr
  simp only [searchResults] at hr
  rcases List.mem_filterMap.mp hr with ⟨n, hn, hfn⟩
  rcases Option.map_eq_some'.mp hfn with ⟨css, hfind, hreq⟩
  have hrid : r.id = n.id := by rw [← hreq]
  have hkey := mem_keys_of_findA_some _ _ _ hfind
  rw [searchContentMap, mem_keys_foldl_putA] at hkey
  simp only [List.map_nil, List.not_mem_nil, or_false] at hkey
  rcases List.mem_map.mp hkey with ⟨t, ht, htid⟩
  simp only [searchAnchorRows] at ht
  rcases List.mem_filterMap.mp ht with ⟨row, hrow, hfrow⟩
  have ht1 : t.1 = row := anchorRow_fst_eq row t hfrow
  rw [hrid, ← htid, ht1]
  exact List.mem_map_of_mem _ hrow

/-- Concrete instance of the C10 subset property: the single item of the
spreading scenario is among the fetched top-k rows. -/
theorem spreading_results_are_anchor_subset_witness :
    searchResultItem ∈ searchResults searchDb searchEdges
      testRetrievalConfig distZero [1] true 2
    ∧ searchResultItem.id ∈ (searchRows searchDb distZero [1]
        (anchorLimit testRetrievalConfig true 2)).map (fun v => v.id) :=
  ⟨by with_unfolding_all decide,
    spreading_results_are_anchor_subset.1 searchDb searchEdges
      testRetrievalConfig distZero [1] true 2 searchResultItem
      (by with_unfolding_all decide)⟩

end Ethos
